import Mathlib

/-!
# Verification of the thermal-network solver (`app/src/simulation.ts`)

This file gives a shallow embedding of the numerical core of the
`inspire-thermal-simulation` repository and proves properties of it.

Numbers are modelled by `ℚ` (exact real arithmetic).  JavaScript `number`
values that pass the source's `Number.isFinite` checks are finite reals;
`ℚ` has no infinities or NaNs, so the predicate `isFiniteQ` below is
constantly `true` and the corresponding validation branches are dead in
the embedding (they are kept so the validation code mirrors the source
line by line).

The solver `simulateThermalNetwork` is translated from
`app/src/simulation.ts` lines 35–151.  The parameter estimator
`estimateParameters` is imported by `App.tsx` from `./simulation` but its
implementation is not present in the sources available here; it is
modelled from the specification, see its doc comment.
-/

namespace ThermalSim

/-- `SimulationNode` of simulation.ts (lines 1–8). -/
structure SimulationNode where
  id : String
  name : String
  initialTemp : ℚ
  heatCapacity : ℚ
  isFixed : Bool
  fixedTemp : ℚ
deriving Repr, DecidableEq, Inhabited

/-- `SimulationEdge` of simulation.ts (lines 10–15). -/
structure SimulationEdge where
  id : String
  source : String
  target : String
  conductance : ℚ
deriving Repr, DecidableEq, Inhabited

/-- `SimulationSettings` of simulation.ts (lines 17–20). -/
structure SimulationSettings where
  timeStep : ℚ
  totalTime : ℚ
deriving Repr, DecidableEq, Inhabited

/-- `SimulationSeries` of simulation.ts (lines 22–26). -/
structure SimulationSeries where
  nodeId : String
  name : String
  temperatures : List ℚ
deriving Repr, DecidableEq, Inhabited

/-- `SimulationResult` of simulation.ts (lines 28–31). -/
structure SimulationResult where
  times : List ℚ
  series : List SimulationSeries
deriving Repr, DecidableEq, Inhabited

/-- `Number.isFinite` on the exact-arithmetic model: every rational is a
finite real, so this is constantly `true`.  Kept so the validation code
below mirrors the source conditions verbatim. -/
def isFiniteQ (_ : ℚ) : Bool := true

/-- Error message thrown at simulation.ts line 41 (no nodes). -/
def errNoNodes : String := "ノードがありません。ノードを追加してください。"

/-- Error message thrown at simulation.ts line 47 (bad timeStep). -/
def errTimeStep : String := "時間刻み Δt は正の数で指定してください。"

/-- Error message thrown at simulation.ts line 51 (bad totalTime). -/
def errTotalTime : String := "総シミュレーション時間は正の数で指定してください。"

/-- Error message thrown at simulation.ts line 55 (totalTime < timeStep). -/
def errTotalLtStep : String := "総シミュレーション時間は時間刻み Δt 以上にしてください。"

/-- Error message thrown at simulation.ts line 60 (bad heatCapacity);
the template interpolates the node's `name`. -/
def errHeatCapacity (name : String) : String :=
  name ++ " の熱容量は正の数で指定してください。"

/-- Error message thrown at simulation.ts line 64 (bad initialTemp). -/
def errInitialTemp (name : String) : String :=
  name ++ " の初期温度が不正です。"

/-- Error message thrown at simulation.ts line 68 (bad fixedTemp). -/
def errFixedTemp (name : String) : String :=
  name ++ " の固定温度が不正です。"

/-- Error message thrown at simulation.ts line 74 (bad conductance).
A fixed string: it does not mention the offending edge. -/
def errConductance : String := "熱コンダクタンスは 0 以上の数値で指定してください。"

/-- Error message thrown at simulation.ts line 83 (dangling edge endpoint).
A fixed string: it does not mention the offending edge. -/
def errDangling : String := "存在しないノードを参照する接続があります。"

/-- The per-node validation body of the `nodes.forEach` at
simulation.ts lines 58–70: first failing check wins. -/
def nodeError (node : SimulationNode) : Option String :=
  if isFiniteQ node.heatCapacity = false ∨ node.heatCapacity ≤ 0 then
    some (errHeatCapacity node.name)
  else if isFiniteQ node.initialTemp = false then
    some (errInitialTemp node.name)
  else if node.isFixed = true ∧ isFiniteQ node.fixedTemp = false then
    some (errFixedTemp node.name)
  else none

/-- The per-edge conductance check of the `edges.forEach` at
simulation.ts lines 72–76. -/
def edgeConductanceError (edge : SimulationEdge) : Option String :=
  if isFiniteQ edge.conductance = false ∨ edge.conductance < 0 then
    some errConductance
  else none

/-- The list of node ids; the key set of the `nodeIndex` map built at
simulation.ts lines 78–79. -/
def nodeIds (nodes : List SimulationNode) : List String :=
  nodes.map (fun node => node.id)

/-- The per-edge endpoint check of the `edges.forEach` at
simulation.ts lines 81–85 (`nodeIndex.has` is membership in the id set). -/
def edgeEndpointError (nodes : List SimulationNode) (edge : SimulationEdge) :
    Option String :=
  if ¬ (edge.source ∈ nodeIds nodes ∧ edge.target ∈ nodeIds nodes) then
    some errDangling
  else none

/-- The node- and edge-level validation chain shared by the solver
(simulation.ts lines 58–85): all nodes checked first, then every edge's
conductance, then every edge's endpoints; within each stage the first
offender wins (`forEach` + `throw`). -/
def networkEntityError (nodes : List SimulationNode)
    (edges : List SimulationEdge) : Option String :=
  match nodes.findSome? nodeError with
  | some e => some e
  | none =>
    match edges.findSome? edgeConductanceError with
    | some e => some e
    | none => edges.findSome? (edgeEndpointError nodes)

/-- The full precondition validation of `simulateThermalNetwork`
(simulation.ts lines 40–85), returning the first error thrown, if any. -/
def validate (nodes : List SimulationNode) (edges : List SimulationEdge)
    (settings : SimulationSettings) : Option String :=
  if nodes.isEmpty = true then some errNoNodes
  else if isFiniteQ settings.timeStep = false ∨ settings.timeStep ≤ 0 then
    some errTimeStep
  else if isFiniteQ settings.totalTime = false ∨ settings.totalTime ≤ 0 then
    some errTotalTime
  else if settings.totalTime < settings.timeStep then some errTotalLtStep
  else networkEntityError nodes edges

/-- The `nodeIndex` map (simulation.ts lines 78–79): id → index.  A JS
`Map` overwrites on `set`, so for a duplicated id the last index wins. -/
def nodeIndexMap (nodes : List SimulationNode) (s : String) : Option Nat :=
  nodes.enum.foldl
    (fun m p => if s = p.2.id then some p.1 else m) none

/-- One `edges.forEach` body of the adjacency construction
(simulation.ts lines 89–95): push `(target, g)` on the source's list and
`(source, g)` on the target's list. -/
def addEdgeToAdjacency (adj : List (List (Nat × ℚ))) (si ti : Nat) (g : ℚ) :
    List (List (Nat × ℚ)) :=
  let adj1 := adj.set si ((adj.getD si []) ++ [(ti, g)])
  adj1.set ti ((adj1.getD ti []) ++ [(si, g)])

/-- One fold step of the adjacency construction; the `!` assertions of the
source (lines 90–91) cannot fail after validation, the fallback branch is
dead code then. -/
def adjacencyStep (nodes : List SimulationNode)
    (adj : List (List (Nat × ℚ))) (edge : SimulationEdge) :
    List (List (Nat × ℚ)) :=
  match nodeIndexMap nodes edge.source, nodeIndexMap nodes edge.target with
  | some si, some ti => addEdgeToAdjacency adj si ti edge.conductance
  | _, _ => adj

/-- The adjacency structure (simulation.ts lines 87–95): one list of
`(neighborIndex, conductance)` pairs per node. -/
def buildAdjacency (nodes : List SimulationNode)
    (edges : List SimulationEdge) : List (List (Nat × ℚ)) :=
  edges.foldl (adjacencyStep nodes) (nodes.map (fun _ => []))

/-- The initial temperature vector (simulation.ts lines 103–105). -/
def initTemps (nodes : List SimulationNode) : List ℚ :=
  nodes.map (fun node => if node.isFixed then node.fixedTemp else node.initialTemp)

/-- The `netHeatFlow` accumulation (simulation.ts lines 130–136): sum over
one adjacency list of `conductance * (temps[neighbor] - temps[i])`. -/
def flowOfList (temps : List ℚ) (i : Nat) (l : List (Nat × ℚ)) : ℚ :=
  l.foldl (fun acc p => acc + p.2 * (temps.getD p.1 0 - temps.getD i 0)) 0

/-- One pass of the per-node update loop (simulation.ts lines 122–140):
fixed nodes are clamped to `fixedTemp`, free nodes move by
`netHeatFlow / heatCapacity * step`; every read is from the previous
snapshot `temps`. -/
def stepTemps (nodes : List SimulationNode) (adj : List (List (Nat × ℚ)))
    (temps : List ℚ) (step : ℚ) : List ℚ :=
  (List.range nodes.length).map (fun i =>
    let node := nodes.getD i default
    if node.isFixed then node.fixedTemp
    else temps.getD i 0 + flowOfList temps i (adj.getD i []) / node.heatCapacity * step)

/-- The loop tolerance `1e-9` of simulation.ts line 114. -/
def tolQ : ℚ := 1 / 1000000000

/-- Executable floor on `ℚ` (equal to `⌊·⌋`, see `floorQ_eq`). -/
def floorQ (q : ℚ) : ℤ := q.num / q.den

/-- Executable ceiling on `ℚ` (equal to `⌈·⌉`, see `ceilQ_eq`). -/
def ceilQ (q : ℚ) : ℤ := -floorQ (-q)

/-- `Number(elapsed.toFixed(6))` of simulation.ts line 147: round to six
decimal places (half away from zero; all values rounded here are ≥ 0, so
half-up). -/
def round6 (q : ℚ) : ℚ := (floorQ (q * 1000000 + 1 / 2) : ℚ) / 1000000

/-- The mutable state of the while loop of simulation.ts lines 111–148.
The source pushes each node's new temperature on its own series; here the
whole snapshot is pushed on `history` and the per-node series are read off
at the end, which records exactly the same per-sample values. -/
structure LoopState where
  elapsed : ℚ
  temps : List ℚ
  times : List ℚ
  history : List (List ℚ)
deriving Repr, DecidableEq, Inhabited

/-- The while loop of simulation.ts lines 116–148, with an explicit fuel
bound (the loop terminates before the fuel chosen in
`simulateThermalNetwork` runs out; this is proved below). -/
def runLoop (nodes : List SimulationNode) (adj : List (List (Nat × ℚ)))
    (ts T : ℚ) : Nat → LoopState → LoopState
  | 0, st => st
  | fuel + 1, st =>
    if st.elapsed + tolQ < T then
      runLoop nodes adj ts T fuel
        ⟨st.elapsed + min ts (T - st.elapsed),
         stepTemps nodes adj st.temps (min ts (T - st.elapsed)),
         st.times ++ [round6 (st.elapsed + min ts (T - st.elapsed))],
         st.history ++ [stepTemps nodes adj st.temps (min ts (T - st.elapsed))]⟩
    else st

/-- Fuel for `runLoop`: one more than `⌈totalTime / timeStep⌉`, an upper
bound on the number of loop iterations. -/
def fuelFor (settings : SimulationSettings) : Nat :=
  (ceilQ (settings.totalTime / settings.timeStep)).toNat + 1

/-- The construction of the returned `series` (simulation.ts lines
97–101 and 144): node `i`'s series is the `i`-th component of every
recorded snapshot. -/
def mkSeries (nodes : List SimulationNode) (history : List (List ℚ)) :
    List SimulationSeries :=
  (List.range nodes.length).map (fun i =>
    { nodeId := (nodes.getD i default).id
      name := (nodes.getD i default).name
      temperatures := history.map (fun temps => temps.getD i 0) })

/-- `simulateThermalNetwork` of simulation.ts lines 35–151: validate,
build the adjacency, record the initial sample, run the time loop, and
assemble the result.  A thrown `SimulationError` is the `Except.error`
case carrying the message. -/
def simulateThermalNetwork (nodes : List SimulationNode)
    (edges : List SimulationEdge) (settings : SimulationSettings) :
    Except String SimulationResult :=
  match validate nodes edges settings with
  | some e => .error e
  | none =>
    .ok { times := (runLoop nodes (buildAdjacency nodes edges)
            settings.timeStep settings.totalTime (fuelFor settings)
            ⟨0, initTemps nodes, [0], [initTemps nodes]⟩).times
          series := mkSeries nodes ((runLoop nodes (buildAdjacency nodes edges)
            settings.timeStep settings.totalTime (fuelFor settings)
            ⟨0, initTemps nodes, [0], [initTemps nodes]⟩).history) }

/-! ## Derived descriptions of the loop's behaviour

The following definitions give closed-form descriptions of the while
loop's state.  They are not translations of further source code; the
lemma `simulateThermalNetwork_eq` below proves that the solver's output
is exactly described by them. -/

/-- The number of iterations the while loop performs (proved below):
`⌈(totalTime - 1e-9) / timeStep⌉`. -/
def stepCount (ts T : ℚ) : Nat := (ceilQ ((T - tolQ) / ts)).toNat

/-- The loop's `elapsed` value after `k` iterations (proved below):
`min (k · timeStep) totalTime`. -/
def elapsedAt (ts T : ℚ) (k : Nat) : ℚ := min ((k : ℚ) * ts) T

/-- The step size used by iteration `k + 1` of the loop:
`min timeStep (totalTime - elapsed)` as at simulation.ts line 117. -/
def stepAt (ts T : ℚ) (k : Nat) : ℚ := min ts (T - elapsedAt ts T k)

/-- The temperature vector after `k` iterations. -/
def tempsAt (nodes : List SimulationNode) (adj : List (List (Nat × ℚ)))
    (ts T : ℚ) : Nat → List ℚ
  | 0 => initTemps nodes
  | k + 1 => stepTemps nodes adj (tempsAt nodes adj ts T k) (stepAt ts T k)

/-- The `times` array after `k` iterations. -/
def timesUpTo (ts T : ℚ) (k : Nat) : List ℚ :=
  (List.range (k + 1)).map (fun j => round6 (elapsedAt ts T j))

/-- The list of recorded temperature snapshots after `k` iterations. -/
def historyUpTo (nodes : List SimulationNode) (adj : List (List (Nat × ℚ)))
    (ts T : ℚ) (k : Nat) : List (List ℚ) :=
  (List.range (k + 1)).map (tempsAt nodes adj ts T)

/-- Closed form of the solver's successful result. -/
def resultAt (nodes : List SimulationNode) (edges : List SimulationEdge)
    (s : SimulationSettings) : SimulationResult :=
  { times := timesUpTo s.timeStep s.totalTime (stepCount s.timeStep s.totalTime)
    series := mkSeries nodes
      (historyUpTo nodes (buildAdjacency nodes edges) s.timeStep s.totalTime
        (stepCount s.timeStep s.totalTime)) }

/-- The vector of all node temperatures at sample `k` of a result. -/
def sampleVec (res : SimulationResult) (k : Nat) : List ℚ :=
  res.series.map (fun ser => ser.temperatures.getD k 0)

/-- Total thermal energy `Σ heatCapacity · temperature` of a snapshot. -/
def totalEnergy (nodes : List SimulationNode) (temps : List ℚ) : ℚ :=
  ∑ i in Finset.range nodes.length,
    (nodes.getD i default).heatCapacity * temps.getD i 0

/-- The heat flow an edge contributes into node index `i` given the
snapshot `temps` (both endpoint contributions of simulation.ts
lines 93–94, read off at node `i`). -/
def edgeContrib (nodes : List SimulationNode) (temps : List ℚ) (i : Nat)
    (e : SimulationEdge) : ℚ :=
  match nodeIndexMap nodes e.source, nodeIndexMap nodes e.target with
  | some si, some ti =>
      (if i = si then e.conductance * (temps.getD ti 0 - temps.getD i 0) else 0) +
      (if i = ti then e.conductance * (temps.getD si 0 - temps.getD i 0) else 0)
  | _, _ => 0

/-- The `times` of a solver call, `[]` on a validation error. -/
def simTimes (r : Except String SimulationResult) : List ℚ :=
  match r with
  | .ok res => res.times
  | .error _ => []

/-! ## Parameter estimator

Modelled from the spec: `App.tsx` imports `estimateParameters`,
`MeasurementData`, `ParameterEstimationSettings` and
`ParameterEstimationResult` from `./simulation`, but the implementation of
the estimator is not present in the source files available here; the
definitions below model §4.2 of the specification (same structural
preconditions as the Solver validated identically up front, fail-fast on
empty measurement data, solver error of the initial forward simulation
surfaced unchanged, bounded iterative local search with
tolerance-respecting acceptance). -/

/-- Modelled from the spec: a per-node measurement trace (§3). -/
structure MeasurementData where
  nodeId : String
  times : List ℚ
  temperatures : List ℚ
deriving Repr, DecidableEq, Inhabited

/-- Modelled from the spec: optimizer configuration (§3). -/
structure OptimizationSettings where
  maxIterations : Nat
  tolerance : ℚ
deriving Repr, DecidableEq, Inhabited

/-- Modelled from the spec: estimation settings — measurement set plus
optimizer configuration (§3). -/
structure ParameterEstimationSettings where
  measurementData : List MeasurementData
  optimizationSettings : OptimizationSettings
deriving Repr, DecidableEq, Inhabited

/-- Modelled from the spec: convergence summary (§3). -/
structure ConvergenceInfo where
  iterations : Nat
  converged : Bool
  finalError : ℚ
deriving Repr, DecidableEq, Inhabited

/-- Modelled from the spec: the estimation report (§3). -/
structure ParameterEstimationResult where
  estimatedHeatCapacities : List (String × ℚ)
  estimatedConductances : List (String × ℚ)
  convergenceInfo : ConvergenceInfo
deriving Repr, DecidableEq, Inhabited

/-- Modelled from the spec: the fail-fast error for empty measurement
data (§4.2). -/
def errEmptyMeasurement : String := "測定データがありません。"

/-- Modelled from the spec: the structural preconditions of the Solver
applied to the supplied nodes/edges, validated identically (§4.2). -/
def validateNetworkStructure (nodes : List SimulationNode)
    (edges : List SimulationEdge) : Option String :=
  if nodes.isEmpty = true then some errNoNodes
  else networkEntityError nodes edges

/-- Modelled from the spec: the span of the combined measurement data. -/
def measurementSpan (ms : List MeasurementData) : ℚ :=
  (ms.map (fun m => m.times.foldl max 0)).foldl max 0

/-- Modelled from the spec: the solver settings implied by the
measurement data — its time span, at a resolution of a hundredth of the
span (a nominal valid setting when the span is degenerate). -/
def estimationSimSettings (ms : List MeasurementData) : SimulationSettings :=
  if 0 < measurementSpan ms then
    { timeStep := measurementSpan ms / 100, totalTime := measurementSpan ms }
  else { timeStep := 1, totalTime := 1 }

/-- Modelled from the spec: resample the simulated trace onto a
measurement time point (nearest step index at or below it). -/
def sampleIndexFor (ts t : ℚ) : Nat := (floorQ (t / ts)).toNat

/-- The simulated series of a given node id, if any (a measurement whose
id is absent from the network is ignored, §4.2). -/
def seriesFor (res : SimulationResult) (nodeId : String) :
    Option SimulationSeries :=
  res.series.find? (fun ser => ser.nodeId = nodeId)

/-- Modelled from the spec: squared discrepancy of one measurement trace
against the simulated result. -/
def measurementError (res : SimulationResult) (ts : ℚ)
    (m : MeasurementData) : ℚ :=
  match seriesFor res m.nodeId with
  | none => 0
  | some ser =>
    ((m.times.zip m.temperatures).map (fun p =>
      (ser.temperatures.getD (sampleIndexFor ts p.1) 0 - p.2) ^ 2)).sum

/-- Modelled from the spec: the scalar objective for a candidate network;
`none` when the forward simulation fails (candidate rejected, §7). -/
def objective (nodes : List SimulationNode) (edges : List SimulationEdge)
    (ms : List MeasurementData) : Option ℚ :=
  match simulateThermalNetwork nodes edges (estimationSimSettings ms) with
  | .error _ => none
  | .ok res =>
    some ((ms.map (measurementError res (estimationSimSettings ms).timeStep)).sum)

/-- State of the estimator's search loop. -/
structure EstimState where
  nodes : List SimulationNode
  edges : List SimulationEdge
  err : ℚ
  iterations : Nat
  converged : Bool
deriving Repr, DecidableEq, Inhabited

/-- Scale every free parameter (heat capacities and conductances) by a
positive factor — the candidate perturbation of the local search. -/
def scaleParams (nodes : List SimulationNode) (edges : List SimulationEdge)
    (c : ℚ) : List SimulationNode × List SimulationEdge :=
  (nodes.map (fun n => { n with heatCapacity := n.heatCapacity * c }),
   edges.map (fun e => { e with conductance := e.conductance * c }))

/-- Modelled from the spec: one iteration of the bounded local search —
perturb, re-evaluate by a fresh forward simulation, accept only
non-worsening candidates, flag convergence at or below tolerance (§4.2). -/
def estimStep (ms : List MeasurementData) (tol : ℚ) (st : EstimState)
    (k : Nat) : EstimState :=
  if st.converged then st
  else
    match objective (scaleParams st.nodes st.edges
        (if k % 2 = 0 then (9 : ℚ)/10 else (11 : ℚ)/10)).1
      (scaleParams st.nodes st.edges
        (if k % 2 = 0 then (9 : ℚ)/10 else (11 : ℚ)/10)).2 ms with
    | none => { st with iterations := st.iterations + 1 }
    | some e2 =>
      if e2 < st.err then
        { nodes := (scaleParams st.nodes st.edges
            (if k % 2 = 0 then (9 : ℚ)/10 else (11 : ℚ)/10)).1
          edges := (scaleParams st.nodes st.edges
            (if k % 2 = 0 then (9 : ℚ)/10 else (11 : ℚ)/10)).2
          err := e2
          iterations := st.iterations + 1
          converged := decide (e2 ≤ tol) }
      else
        { st with iterations := st.iterations + 1
                  converged := decide (st.err ≤ tol) }

/-- Package a final search state as the estimation report. -/
def estimReport (st : EstimState) : ParameterEstimationResult :=
  { estimatedHeatCapacities := st.nodes.map (fun n => (n.id, n.heatCapacity))
    estimatedConductances := st.edges.map (fun e => (e.id, e.conductance))
    convergenceInfo :=
      { iterations := st.iterations, converged := st.converged
        finalError := st.err } }

/-- Modelled from the spec: `estimate(nodes, edges, settings)` (§4.2) —
validate the structure up front, fail fast on empty measurement data,
surface a solver error of the initial forward simulation unchanged, then
run the bounded search and report parameters plus convergence info. -/
def estimateParameters (nodes : List SimulationNode)
    (edges : List SimulationEdge) (settings : ParameterEstimationSettings) :
    Except String ParameterEstimationResult :=
  match validateNetworkStructure nodes edges with
  | some e => .error e
  | none =>
    if settings.measurementData.isEmpty = true then .error errEmptyMeasurement
    else
      match simulateThermalNetwork nodes edges
          (estimationSimSettings settings.measurementData) with
      | .error e => .error e
      | .ok res0 =>
        .ok (estimReport
          ((List.range settings.optimizationSettings.maxIterations).foldl
            (estimStep settings.measurementData
              settings.optimizationSettings.tolerance)
            { nodes := nodes, edges := edges
              err := (settings.measurementData.map (measurementError res0
                (estimationSimSettings settings.measurementData).timeStep)).sum
              iterations := 1
              converged := decide
                ((settings.measurementData.map (measurementError res0
                  (estimationSimSettings settings.measurementData).timeStep)).sum
                 ≤ settings.optimizationSettings.tolerance) }))

/-! ## Concrete example networks (used to instantiate the theorems) -/

/-- The end-to-end example of spec §8: free node A (100 °C, 50 J/K) and
fixed node B (20 °C) joined by a 5 W/K edge. -/
def wNodes : List SimulationNode :=
  [⟨"a", "A", 100, 50, false, 0⟩, ⟨"b", "B", 0, 1, true, 20⟩]

def wEdges : List SimulationEdge := [⟨"e", "a", "b", 5⟩]

def wSettings : SimulationSettings := ⟨1, 5⟩

def wRes : SimulationResult :=
  ((simulateThermalNetwork wNodes wEdges wSettings).toOption).getD default

/-- A single free node, used for pure time-grid examples. -/
def c2Nodes : List SimulationNode := [⟨"a", "A", 0, 1, false, 0⟩]

def c2Res : SimulationResult :=
  ((simulateThermalNetwork c2Nodes [] ⟨7, 20⟩).toOption).getD default

/-- Two free nodes exchanging heat, for the conservation example. -/
def c5Nodes : List SimulationNode :=
  [⟨"a", "A", 100, 2, false, 0⟩, ⟨"b", "B", 0, 3, false, 0⟩]

def c5Edges : List SimulationEdge := [⟨"e", "a", "b", 1⟩]

def c5Res : SimulationResult :=
  ((simulateThermalNetwork c5Nodes c5Edges ⟨1, 3⟩).toOption).getD default

/-- Two free nodes for the parallel-edge and self-loop examples. -/
def c7Nodes : List SimulationNode :=
  [⟨"a", "A", 100, 10, false, 0⟩, ⟨"b", "B", 0, 10, false, 0⟩]

def c7e1 : SimulationEdge := ⟨"e1", "a", "b", 1⟩

def c7e2 : SimulationEdge := ⟨"e2", "a", "b", 2⟩

/-- Anti-parallel duplicate of `c7e1`'s pair: same two nodes, opposite
orientation (edges are undirected for heat flow). -/
def c7e2r : SimulationEdge := ⟨"e2r", "b", "a", 2⟩

def c7eMerged : SimulationEdge := ⟨"em", "a", "b", 3⟩

def c7Res : SimulationResult :=
  ((simulateThermalNetwork c7Nodes [c7e1, c7e2] ⟨1, 2⟩).toOption).getD default

def c7ResAnti : SimulationResult :=
  ((simulateThermalNetwork c7Nodes [c7e1, c7e2r] ⟨1, 2⟩).toOption).getD default

def c8Nodes : List SimulationNode :=
  [⟨"a", "A", 0, 1, false, 0⟩, ⟨"b", "B", 0, 1, false, 0⟩]

def c8GoodEdge : SimulationEdge := ⟨"good", "a", "b", 1⟩

def c8BadEdge : SimulationEdge := ⟨"bad-1", "a", "b", -1⟩

def c8BadEdge2 : SimulationEdge := ⟨"bad-2", "b", "a", -2⟩

def c10Loop : SimulationEdge := ⟨"loop", "a", "a", 2⟩

def c8BadNode : SimulationNode := ⟨"x", "X", 0, 0, false, 0⟩

def c10Res : SimulationResult :=
  ((simulateThermalNetwork c7Nodes [c7e1] ⟨1, 2⟩).toOption).getD default

def c4Nodes : List SimulationNode := [⟨"a", "A", 20, 100, false, 0⟩]

def c4Settings : ParameterEstimationSettings := ⟨[⟨"a", [0], [5]⟩], ⟨2, 1/1000⟩⟩

def c4SettingsEmpty : ParameterEstimationSettings := ⟨[], ⟨2, 1/1000⟩⟩

/-! ## Basic list helpers -/

/-- Reading an index below the bound out of a map over `List.range`. -/
lemma getD_range_map {α : Type} (f : Nat → α) (n i : Nat) (d : α) (h : i < n) :
    ((List.range n).map f).getD i d = f i := by
  simp [List.getD_eq_getElem?_getD, List.getElem?_map, List.getElem?_range h]

/-- A list is recovered from its `getD` reads over `List.range`. -/
lemma range_map_getD (l : List ℚ) (n : Nat) (h : l.length = n) :
    (List.range n).map (fun i => l.getD i 0) = l := by
  apply List.ext_getElem?
  intro i
  by_cases hi : i < n
  · rw [List.getElem?_map, List.getElem?_range hi, Option.map_some']
    have hil : i < l.length := h ▸ hi
    rw [List.getElem?_eq_getElem hil, List.getD_eq_getElem?_getD,
      List.getElem?_eq_getElem hil]
    rfl
  · rw [List.getElem?_map]
    rw [List.getElem?_eq_none (by simpa using hi),
      List.getElem?_eq_none (by omega), Option.map_none']

/-- `findSome?` returns the first hit: elements before it all miss. -/
lemma findSome?_first {α β : Type} (f : α → Option β) (pre : List α) (x : α)
    (suf : List α) (e : β) (hpre : ∀ y ∈ pre, f y = none) (hx : f x = some e) :
    (pre ++ x :: suf).findSome? f = some e := by
  induction pre with
  | nil => simp [List.findSome?_cons, hx]
  | cons a l ih =>
    have ha : f a = none := hpre a (by simp)
    simp only [List.cons_append, List.findSome?_cons, ha]
    exact ih (fun y hy => hpre y (by simp [hy]))

/-! ## Validation characterization -/

lemma nodeError_eq (node : SimulationNode) :
    nodeError node =
      if node.heatCapacity ≤ 0 then some (errHeatCapacity node.name) else none := by
  simp [nodeError, isFiniteQ]

lemma nodeError_eq_none (node : SimulationNode) :
    nodeError node = none ↔ 0 < node.heatCapacity := by
  rw [nodeError_eq]
  split <;> rename_i h
  · simp [h, not_lt.mpr h]
  · simp [lt_of_not_le h]

lemma edgeConductanceError_eq (edge : SimulationEdge) :
    edgeConductanceError edge =
      if edge.conductance < 0 then some errConductance else none := by
  simp [edgeConductanceError, isFiniteQ]

lemma edgeConductanceError_eq_none (edge : SimulationEdge) :
    edgeConductanceError edge = none ↔ 0 ≤ edge.conductance := by
  rw [edgeConductanceError_eq]
  split <;> rename_i h
  · simp [h, not_le.mpr h]
  · simp [le_of_not_lt h]

lemma edgeEndpointError_eq_none (nodes : List SimulationNode)
    (edge : SimulationEdge) :
    edgeEndpointError nodes edge = none ↔
      edge.source ∈ nodeIds nodes ∧ edge.target ∈ nodeIds nodes := by
  simp only [edgeEndpointError, ite_eq_right_iff]
  constructor
  · intro h
    by_contra hc
    exact Option.some_ne_none _ (h hc)
  · intro h hc
    exact absurd h hc

lemma networkEntityError_eq_none_iff (nodes : List SimulationNode)
    (edges : List SimulationEdge) :
    networkEntityError nodes edges = none ↔
      (∀ node ∈ nodes, 0 < node.heatCapacity) ∧
      (∀ edge ∈ edges, 0 ≤ edge.conductance) ∧
      (∀ edge ∈ edges,
        edge.source ∈ nodeIds nodes ∧ edge.target ∈ nodeIds nodes) := by
  unfold networkEntityError
  constructor
  · intro h
    rcases h1 : nodes.findSome? nodeError with _ | e1
    · rcases h2 : edges.findSome? edgeConductanceError with _ | e2
      · rw [h1, h2] at h
        refine ⟨?_, ?_, ?_⟩
        · intro node hn
          exact (nodeError_eq_none node).mp
            (List.findSome?_eq_none_iff.mp h1 node hn)
        · intro edge he
          exact (edgeConductanceError_eq_none edge).mp
            (List.findSome?_eq_none_iff.mp h2 edge he)
        · intro edge he
          exact (edgeEndpointError_eq_none nodes edge).mp
            (List.findSome?_eq_none_iff.mp h edge he)
      · rw [h1, h2] at h; exact absurd h (by simp)
    · rw [h1] at h; exact absurd h (by simp)
  · rintro ⟨hn, hc, hd⟩
    have h1 : nodes.findSome? nodeError = none :=
      List.findSome?_eq_none_iff.mpr
        (fun node hmem => (nodeError_eq_none node).mpr (hn node hmem))
    have h2 : edges.findSome? edgeConductanceError = none :=
      List.findSome?_eq_none_iff.mpr
        (fun edge hmem => (edgeConductanceError_eq_none edge).mpr (hc edge hmem))
    have h3 : edges.findSome? (edgeEndpointError nodes) = none :=
      List.findSome?_eq_none_iff.mpr
        (fun edge hmem => (edgeEndpointError_eq_none nodes edge).mpr (hd edge hmem))
    rw [h1, h2, h3]

lemma validate_eq_of_empty (nodes : List SimulationNode)
    (edges : List SimulationEdge) (s : SimulationSettings) (h : nodes = []) :
    validate nodes edges s = some errNoNodes := by
  simp [validate, h]

lemma validate_eq_of_badTimeStep (nodes : List SimulationNode)
    (edges : List SimulationEdge) (s : SimulationSettings) (h : nodes ≠ [])
    (h2 : s.timeStep ≤ 0) : validate nodes edges s = some errTimeStep := by
  simp [validate, isFiniteQ, h, h2]

lemma validate_eq_of_badTotalTime (nodes : List SimulationNode)
    (edges : List SimulationEdge) (s : SimulationSettings) (h : nodes ≠ [])
    (h2 : 0 < s.timeStep) (h3 : s.totalTime ≤ 0) :
    validate nodes edges s = some errTotalTime := by
  simp [validate, isFiniteQ, h, not_le.mpr h2, h3]

lemma validate_eq_of_totalLtStep (nodes : List SimulationNode)
    (edges : List SimulationEdge) (s : SimulationSettings) (h : nodes ≠ [])
    (h2 : 0 < s.timeStep) (h3 : 0 < s.totalTime) (h4 : s.totalTime < s.timeStep) :
    validate nodes edges s = some errTotalLtStep := by
  simp [validate, isFiniteQ, h, not_le.mpr h2, not_le.mpr h3, h4]

lemma validate_eq_entity (nodes : List SimulationNode)
    (edges : List SimulationEdge) (s : SimulationSettings) (h : nodes ≠ [])
    (h2 : 0 < s.timeStep) (h3 : 0 < s.totalTime) (h4 : s.timeStep ≤ s.totalTime) :
    validate nodes edges s = networkEntityError nodes edges := by
  simp [validate, isFiniteQ, h, not_le.mpr h2, not_le.mpr h3, not_lt.mpr h4]

/-- Full declarative characterization of acceptance by the validation. -/
lemma validate_none_iff (nodes : List SimulationNode)
    (edges : List SimulationEdge) (s : SimulationSettings) :
    validate nodes edges s = none ↔
      (nodes ≠ [] ∧ 0 < s.timeStep ∧ 0 < s.totalTime ∧
       s.timeStep ≤ s.totalTime ∧
       (∀ node ∈ nodes, 0 < node.heatCapacity) ∧
       (∀ edge ∈ edges, 0 ≤ edge.conductance) ∧
       (∀ edge ∈ edges,
         edge.source ∈ nodeIds nodes ∧ edge.target ∈ nodeIds nodes)) := by
  constructor
  · intro h
    by_cases h1 : nodes = []
    · rw [validate_eq_of_empty nodes edges s h1] at h; exact absurd h (by simp)
    by_cases h2 : 0 < s.timeStep
    swap
    · rw [validate_eq_of_badTimeStep nodes edges s h1 (not_lt.mp h2)] at h
      exact absurd h (by simp)
    by_cases h3 : 0 < s.totalTime
    swap
    · rw [validate_eq_of_badTotalTime nodes edges s h1 h2 (not_lt.mp h3)] at h
      exact absurd h (by simp)
    by_cases h4 : s.timeStep ≤ s.totalTime
    swap
    · rw [validate_eq_of_totalLtStep nodes edges s h1 h2 h3 (not_le.mp h4)] at h
      exact absurd h (by simp)
    rw [validate_eq_entity nodes edges s h1 h2 h3 h4] at h
    have := (networkEntityError_eq_none_iff nodes edges).mp h
    exact ⟨h1, h2, h3, h4, this.1, this.2.1, this.2.2⟩
  · rintro ⟨h1, h2, h3, h4, h5, h6, h7⟩
    rw [validate_eq_entity nodes edges s h1 h2 h3 h4]
    exact (networkEntityError_eq_none_iff nodes edges).mpr ⟨h5, h6, h7⟩

/-- First node-level violation wins within the node stage. -/
lemma networkEntityError_nodeErr (nodes : List SimulationNode)
    (edges : List SimulationEdge) (pre : List SimulationNode)
    (node : SimulationNode) (suf : List SimulationNode)
    (hsplit : nodes = pre ++ node :: suf)
    (hpre : ∀ x ∈ pre, 0 < x.heatCapacity) (hbad : node.heatCapacity ≤ 0) :
    networkEntityError nodes edges = some (errHeatCapacity node.name) := by
  have h1 : nodes.findSome? nodeError = some (errHeatCapacity node.name) := by
    rw [hsplit]
    exact findSome?_first nodeError pre node suf _
      (fun y hy => (nodeError_eq_none y).mpr (hpre y hy))
      (by rw [nodeError_eq]; simp [hbad])
  unfold networkEntityError
  rw [h1]

/-- First conductance violation wins, after all nodes check out. -/
lemma networkEntityError_condErr (nodes : List SimulationNode)
    (edges : List SimulationEdge) (hnodes : ∀ node ∈ nodes, 0 < node.heatCapacity)
    (pre : List SimulationEdge) (edge : SimulationEdge) (suf : List SimulationEdge)
    (hsplit : edges = pre ++ edge :: suf)
    (hpre : ∀ x ∈ pre, 0 ≤ x.conductance) (hbad : edge.conductance < 0) :
    networkEntityError nodes edges = some errConductance := by
  have h1 : nodes.findSome? nodeError = none :=
    List.findSome?_eq_none_iff.mpr
      (fun node hmem => (nodeError_eq_none node).mpr (hnodes node hmem))
  have h2 : edges.findSome? edgeConductanceError = some errConductance := by
    rw [hsplit]
    exact findSome?_first edgeConductanceError pre edge suf _
      (fun y hy => (edgeConductanceError_eq_none y).mpr (hpre y hy))
      (by rw [edgeConductanceError_eq]; simp [hbad])
  unfold networkEntityError
  rw [h1, h2]

/-- A dangling endpoint reported after nodes and conductances check out;
the error is the same fixed string whichever edge is at fault. -/
lemma networkEntityError_dangling (nodes : List SimulationNode)
    (edges : List SimulationEdge) (hnodes : ∀ node ∈ nodes, 0 < node.heatCapacity)
    (hcond : ∀ edge ∈ edges, 0 ≤ edge.conductance)
    (hbad : ∃ edge ∈ edges,
      ¬ (edge.source ∈ nodeIds nodes ∧ edge.target ∈ nodeIds nodes)) :
    networkEntityError nodes edges = some errDangling := by
  have h1 : nodes.findSome? nodeError = none :=
    List.findSome?_eq_none_iff.mpr
      (fun node hmem => (nodeError_eq_none node).mpr (hnodes node hmem))
  have h2 : edges.findSome? edgeConductanceError = none :=
    List.findSome?_eq_none_iff.mpr
      (fun edge hmem => (edgeConductanceError_eq_none edge).mpr (hcond edge hmem))
  have h3 : edges.findSome? (edgeEndpointError nodes) = some errDangling := by
    rcases h : edges.findSome? (edgeEndpointError nodes) with _ | e
    · rcases hbad with ⟨edge, hmem, hviol⟩
      have := List.findSome?_eq_none_iff.mp h edge hmem
      rw [(edgeEndpointError_eq_none nodes edge)] at this
      exact absurd this hviol
    · have : e = errDangling := by
        rcases List.exists_of_findSome?_eq_some h with ⟨edge, _, he⟩
        unfold edgeEndpointError at he
        by_cases hc : edge.source ∈ nodeIds nodes ∧ edge.target ∈ nodeIds nodes
        · simp [hc] at he
        · simp [hc] at he; exact he.symm
      rw [this]
  unfold networkEntityError
  rw [h1, h2, h3]

/-! ## The node-index map -/

lemma indexFold_isSome {l : List (Nat × SimulationNode)} {init : Option Nat}
    {s : String}
    (h : (∃ p ∈ l, s = p.2.id) ∨ init.isSome = true) :
    (l.foldl (fun m p => if s = p.2.id then some p.1 else m) init).isSome = true := by
  induction l generalizing init with
  | nil =>
    rcases h with ⟨p, hp, _⟩ | h
    · exact absurd hp (List.not_mem_nil p)
    · exact h
  | cons a t ih =>
    rw [List.foldl_cons]
    apply ih
    rcases h with ⟨p, hp, hid⟩ | h
    · rcases List.mem_cons.mp hp with rfl | hp
      · right; simp [hid]
      · left; exact ⟨p, hp, hid⟩
    · right
      by_cases hs : s = a.2.id <;> simp [hs, h]

lemma indexFold_mem {l : List (Nat × SimulationNode)} {init : Option Nat}
    {s : String} {i : Nat}
    (h : l.foldl (fun m p => if s = p.2.id then some p.1 else m) init = some i) :
    (∃ p ∈ l, p.1 = i) ∨ init = some i := by
  induction l generalizing init with
  | nil => right; exact h
  | cons a t ih =>
    rw [List.foldl_cons] at h
    rcases ih h with ⟨p, hp, hpi⟩ | h2
    · left; exact ⟨p, List.mem_cons_of_mem a hp, hpi⟩
    · by_cases hs : s = a.2.id
      · rw [if_pos hs] at h2
        left
        exact ⟨a, List.mem_cons_self a t, (Option.some_inj.mp h2)⟩
      · rw [if_neg hs] at h2
        right; exact h2

lemma mem_enumFrom_fst_lt {α : Type} (l : List α) (n : Nat) (p : Nat × α)
    (h : p ∈ List.enumFrom n l) : p.1 < n + l.length := by
  obtain ⟨i, x⟩ := p
  have := List.mem_enumFrom h
  omega

lemma exists_enumFrom_of_mem {α : Type} (l : List α) (x : α) (h : x ∈ l) :
    ∀ n, ∃ i, (i, x) ∈ List.enumFrom n l := by
  induction l with
  | nil => exact absurd h (List.not_mem_nil x)
  | cons a t ih =>
    intro n
    rcases List.mem_cons.mp h with rfl | hx
    · exact ⟨n, by simp [List.enumFrom]⟩
    · rcases ih hx (n + 1) with ⟨i, hi⟩
      exact ⟨i, by simp [List.enumFrom, hi]⟩

/-- A resolved node index is in range. -/
lemma nodeIndexMap_lt (nodes : List SimulationNode) (s : String) (i : Nat)
    (h : nodeIndexMap nodes s = some i) : i < nodes.length := by
  rcases indexFold_mem h with ⟨p, hp, hpi⟩ | hnone
  · have := mem_enumFrom_fst_lt nodes 0 p hp
    omega
  · exact absurd hnone (by simp)

/-- Every id present among the nodes resolves to an index. -/
lemma nodeIndexMap_isSome (nodes : List SimulationNode) (s : String)
    (h : s ∈ nodeIds nodes) : (nodeIndexMap nodes s).isSome = true := by
  rcases List.mem_map.mp h with ⟨node, hmem, hid⟩
  rcases exists_enumFrom_of_mem nodes node hmem 0 with ⟨i, hi⟩
  exact indexFold_isSome (Or.inl ⟨(i, node), hi, hid.symm⟩)

/-! ## Loop characterization -/

lemma tolQ_pos : (0 : ℚ) < tolQ := by norm_num [tolQ]

lemma floorQ_eq (q : ℚ) : floorQ q = ⌊q⌋ := Rat.floor_def.symm

lemma ceilQ_eq (q : ℚ) : ceilQ q = ⌈q⌉ := by
  rw [ceilQ, floorQ_eq]
  rfl

lemma round6_zero : round6 0 = 0 := by
  rw [round6, floorQ_eq]
  norm_num

lemma elapsedAt_zero (ts T : ℚ) (hT : 0 ≤ T) : elapsedAt ts T 0 = 0 := by
  simp [elapsedAt, hT]

/-- The loop guard after `k` iterations holds exactly when `k` is below
the total iteration count. -/
lemma loopCond_iff (ts T : ℚ) (hts : 0 < ts) (k : Nat) :
    elapsedAt ts T k + tolQ < T ↔ k < stepCount ts T := by
  have h1 : elapsedAt ts T k + tolQ < T ↔ (k : ℚ) * ts < T - tolQ := by
    rw [← lt_sub_iff_add_lt, elapsedAt, min_lt_iff]
    have hTT : ¬ (T < T - tolQ) := by
      have := tolQ_pos
      intro hc; linarith
    exact or_iff_left hTT
  rw [h1, stepCount, ceilQ_eq, Int.lt_toNat, Int.lt_ceil, lt_div_iff hts]
  norm_cast

lemma elapsedAt_of_lt (ts T : ℚ) (hts : 0 < ts) (k : Nat)
    (h : k < stepCount ts T) : elapsedAt ts T k = (k : ℚ) * ts := by
  have h1 : elapsedAt ts T k + tolQ < T := (loopCond_iff ts T hts k).mpr h
  rcases min_cases ((k : ℚ) * ts) T with ⟨hmin, -⟩ | ⟨hmin, -⟩
  · rw [elapsedAt, hmin]
  · exfalso
    rw [elapsedAt, hmin] at h1
    have := tolQ_pos
    linarith

lemma elapsedAt_succ (ts T : ℚ) (hts : 0 < ts) (k : Nat)
    (h : k < stepCount ts T) :
    elapsedAt ts T (k + 1) = elapsedAt ts T k + stepAt ts T k := by
  rw [stepAt, elapsedAt_of_lt ts T hts k h, elapsedAt,
    ← min_add_add_left ((k : ℚ) * ts) ts (T - (k : ℚ) * ts)]
  congr 1
  · push_cast; ring
  · ring

lemma timesUpTo_succ (ts T : ℚ) (k : Nat) :
    timesUpTo ts T (k + 1) =
      timesUpTo ts T k ++ [round6 (elapsedAt ts T (k + 1))] := by
  rw [timesUpTo, timesUpTo, List.range_succ, List.map_append]
  rfl

lemma historyUpTo_succ (nodes : List SimulationNode)
    (adj : List (List (Nat × ℚ))) (ts T : ℚ) (k : Nat) :
    historyUpTo nodes adj ts T (k + 1) =
      historyUpTo nodes adj ts T k ++ [tempsAt nodes adj ts T (k + 1)] := by
  rw [historyUpTo, historyUpTo, List.range_succ, List.map_append]
  rfl

/-- The while loop carries the stage-`k` state to the final stage, given
enough fuel. -/
lemma runLoop_spec (nodes : List SimulationNode)
    (adj : List (List (Nat × ℚ))) (ts T : ℚ) (hts : 0 < ts)
    (m k : Nat) (hfuel : stepCount ts T ≤ k + m) (hk : k ≤ stepCount ts T) :
    runLoop nodes adj ts T m
      ⟨elapsedAt ts T k, tempsAt nodes adj ts T k, timesUpTo ts T k,
        historyUpTo nodes adj ts T k⟩ =
    ⟨elapsedAt ts T (stepCount ts T),
     tempsAt nodes adj ts T (stepCount ts T),
     timesUpTo ts T (stepCount ts T),
     historyUpTo nodes adj ts T (stepCount ts T)⟩ := by
  induction m generalizing k with
  | zero =>
    obtain rfl : k = stepCount ts T := le_antisymm hk (by omega)
    rfl
  | succ m ih =>
    by_cases hlt : k < stepCount ts T
    · have hcond : elapsedAt ts T k + tolQ < T :=
        (loopCond_iff ts T hts k).mpr hlt
      rw [runLoop]
      rw [if_pos hcond]
      have hstep : elapsedAt ts T k + min ts (T - elapsedAt ts T k) =
          elapsedAt ts T (k + 1) := by
        rw [elapsedAt_succ ts T hts k hlt]; rfl
      have htemps : stepTemps nodes adj (tempsAt nodes adj ts T k)
          (min ts (T - elapsedAt ts T k)) = tempsAt nodes adj ts T (k + 1) := rfl
      simp only [hstep, htemps]
      rw [← timesUpTo_succ, ← historyUpTo_succ]
      exact ih (k + 1) (by omega) hlt
    · obtain rfl : k = stepCount ts T := le_antisymm hk (not_lt.mp hlt)
      have hcond : ¬ (elapsedAt ts T (stepCount ts T) + tolQ < T) := by
        rw [loopCond_iff ts T hts]
        omega
      rw [runLoop, if_neg hcond]

lemma stepCount_le_fuel (s : SimulationSettings) (hts : 0 < s.timeStep) :
    stepCount s.timeStep s.totalTime ≤ fuelFor s := by
  rw [stepCount, fuelFor, ceilQ_eq, ceilQ_eq]
  have h1 : ⌈(s.totalTime - tolQ) / s.timeStep⌉ ≤ ⌈s.totalTime / s.timeStep⌉ := by
    apply Int.ceil_le_ceil
    rw [div_le_div_right hts]
    linarith [tolQ_pos]
  calc (⌈(s.totalTime - tolQ) / s.timeStep⌉).toNat
      ≤ (⌈s.totalTime / s.timeStep⌉).toNat := Int.toNat_le_toNat h1
    _ ≤ (⌈s.totalTime / s.timeStep⌉).toNat + 1 := by omega

/-- Master lemma: on accepted inputs the solver returns exactly the
closed-form `resultAt`. -/
lemma simulateThermalNetwork_eq (nodes : List SimulationNode)
    (edges : List SimulationEdge) (s : SimulationSettings)
    (h : validate nodes edges s = none) :
    simulateThermalNetwork nodes edges s = .ok (resultAt nodes edges s) := by
  obtain ⟨-, h2, h3, -, -, -, -⟩ := (validate_none_iff nodes edges s).mp h
  unfold simulateThermalNetwork
  rw [h]
  have hinit :
      (⟨0, initTemps nodes, [0], [initTemps nodes]⟩ : LoopState) =
      ⟨elapsedAt s.timeStep s.totalTime 0,
       tempsAt nodes (buildAdjacency nodes edges) s.timeStep s.totalTime 0,
       timesUpTo s.timeStep s.totalTime 0,
       historyUpTo nodes (buildAdjacency nodes edges) s.timeStep s.totalTime 0⟩ := by
    rw [elapsedAt_zero s.timeStep s.totalTime h3.le]
    have ht0 : timesUpTo s.timeStep s.totalTime 0 = [0] := by
      show [round6 (elapsedAt s.timeStep s.totalTime 0)] = [0]
      rw [elapsedAt_zero s.timeStep s.totalTime h3.le, round6_zero]
    rw [ht0]
    rfl
  rw [hinit, runLoop_spec nodes (buildAdjacency nodes edges) s.timeStep
    s.totalTime h2 (fuelFor s) 0 (by simpa using stepCount_le_fuel s h2)
    (Nat.zero_le _)]
  rfl

/-! ## Heat-flow bookkeeping -/

lemma foldl_add_eq (l : List (Nat × ℚ)) (w : Nat × ℚ → ℚ) (c : ℚ) :
    l.foldl (fun a p => a + w p) c = c + (l.map w).sum := by
  induction l generalizing c with
  | nil => simp
  | cons p t ih => rw [List.foldl_cons, ih, List.map_cons, List.sum_cons]; ring

lemma flowOfList_eq_sum (temps : List ℚ) (i : Nat) (l : List (Nat × ℚ)) :
    flowOfList temps i l =
      (l.map (fun p => p.2 * (temps.getD p.1 0 - temps.getD i 0))).sum := by
  rw [flowOfList, foldl_add_eq, zero_add]

lemma flowOfList_append_single (temps : List ℚ) (i j : Nat) (g : ℚ)
    (l : List (Nat × ℚ)) :
    flowOfList temps i (l ++ [(j, g)]) =
      flowOfList temps i l + g * (temps.getD j 0 - temps.getD i 0) := by
  rw [flowOfList_eq_sum, flowOfList_eq_sum, List.map_append, List.sum_append]
  simp

lemma getD_set_lists (l : List (List (Nat × ℚ))) (j : Nat)
    (x : List (Nat × ℚ)) (i : Nat) (hj : j < l.length) :
    (l.set j x).getD i [] = if j = i then x else l.getD i [] := by
  by_cases h1 : j = i
  · subst h1
    simp [List.getD_eq_getElem?_getD, List.getElem?_set, hj]
  · simp [List.getD_eq_getElem?_getD, List.getElem?_set, h1]

lemma addEdgeToAdjacency_length (adj : List (List (Nat × ℚ))) (si ti : Nat)
    (g : ℚ) : (addEdgeToAdjacency adj si ti g).length = adj.length := by
  simp [addEdgeToAdjacency]

/-- Effect of registering one edge on the flow read off at node `i`. -/
lemma flow_addEdge (adj : List (List (Nat × ℚ))) (si ti : Nat) (g : ℚ)
    (temps : List ℚ) (i : Nat) (hs : si < adj.length) (ht : ti < adj.length) :
    flowOfList temps i ((addEdgeToAdjacency adj si ti g).getD i []) =
      flowOfList temps i (adj.getD i []) +
      ((if i = si then g * (temps.getD ti 0 - temps.getD i 0) else 0) +
       (if i = ti then g * (temps.getD si 0 - temps.getD i 0) else 0)) := by
  simp only [addEdgeToAdjacency]
  have hlen1 : (adj.set si (adj.getD si [] ++ [(ti, g)])).length = adj.length := by
    simp
  rw [getD_set_lists _ ti _ i (by rw [hlen1]; exact ht)]
  by_cases hit : ti = i
  · subst hit
    rw [if_pos rfl]
    rw [getD_set_lists _ si _ ti hs]
    by_cases hsi : si = ti
    · subst hsi
      rw [if_pos rfl]
      rw [flowOfList_append_single, flowOfList_append_single]
      simp
    · rw [if_neg hsi]
      rw [flowOfList_append_single]
      rw [if_neg (fun hc : ti = si => hsi hc.symm), if_pos rfl]
      ring
  · rw [if_neg hit]
    rw [getD_set_lists _ si _ i hs]
    rw [if_neg (fun hc : i = ti => hit hc.symm)]
    by_cases hsi : si = i
    · subst hsi
      rw [if_pos rfl]
      rw [flowOfList_append_single]
      rw [if_pos rfl]
      ring
    · rw [if_neg hsi, if_neg (fun hc : i = si => hsi hc.symm)]
      ring

lemma adjacencyStep_length (nodes : List SimulationNode)
    (adj : List (List (Nat × ℚ))) (e : SimulationEdge) :
    (adjacencyStep nodes adj e).length = adj.length := by
  rw [adjacencyStep]
  rcases nodeIndexMap nodes e.source with _ | si <;>
    rcases nodeIndexMap nodes e.target with _ | ti <;>
    simp [addEdgeToAdjacency_length]

/-- Folding edges into the adjacency adds their contributions to the flow
read off at any node `i`. -/
lemma flow_foldl (nodes : List SimulationNode) (temps : List ℚ) (i : Nat) :
    ∀ (edges : List SimulationEdge) (adj : List (List (Nat × ℚ))),
    adj.length = nodes.length →
    (∀ e ∈ edges, (nodeIndexMap nodes e.source).isSome = true ∧
      (nodeIndexMap nodes e.target).isSome = true) →
    flowOfList temps i ((edges.foldl (adjacencyStep nodes) adj).getD i []) =
      flowOfList temps i (adj.getD i []) +
        (edges.map (edgeContrib nodes temps i)).sum := by
  intro edges
  induction edges with
  | nil => intro adj _ _; simp
  | cons e rest ih =>
    intro adj hlen hres
    obtain ⟨hs, ht⟩ := hres e (List.mem_cons_self e rest)
    obtain ⟨si, hsi⟩ := Option.isSome_iff_exists.mp hs
    obtain ⟨ti, hti⟩ := Option.isSome_iff_exists.mp ht
    rw [List.foldl_cons]
    rw [ih (adjacencyStep nodes adj e)
      (by rw [adjacencyStep_length, hlen])
      (fun x hx => hres x (List.mem_cons_of_mem e hx))]
    have hstep : adjacencyStep nodes adj e =
        addEdgeToAdjacency adj si ti e.conductance := by
      rw [adjacencyStep, hsi, hti]
    rw [hstep, flow_addEdge adj si ti e.conductance temps i
      (hlen ▸ nodeIndexMap_lt nodes e.source si hsi)
      (hlen ▸ nodeIndexMap_lt nodes e.target ti hti)]
    have hcontrib : edgeContrib nodes temps i e =
        (if i = si then e.conductance * (temps.getD ti 0 - temps.getD i 0) else 0) +
        (if i = ti then e.conductance * (temps.getD si 0 - temps.getD i 0) else 0) := by
      rw [edgeContrib, hsi, hti]
    rw [List.map_cons, List.sum_cons, hcontrib]
    ring

lemma getD_map_const_nil (nodes : List SimulationNode) (i : Nat) :
    (nodes.map (fun _ => ([] : List (Nat × ℚ)))).getD i [] = [] := by
  rw [List.getD_eq_getElem?_getD, List.getElem?_map]
  rcases nodes[i]? with _ | x <;> rfl

/-- The flow at node `i` out of the built adjacency is the sum of all
edge contributions. -/
lemma flow_build (nodes : List SimulationNode) (edges : List SimulationEdge)
    (temps : List ℚ) (i : Nat)
    (hres : ∀ e ∈ edges, (nodeIndexMap nodes e.source).isSome = true ∧
      (nodeIndexMap nodes e.target).isSome = true) :
    flowOfList temps i ((buildAdjacency nodes edges).getD i []) =
      (edges.map (edgeContrib nodes temps i)).sum := by
  rw [buildAdjacency, flow_foldl nodes temps i edges _ (by simp) hres,
    getD_map_const_nil]
  have : flowOfList temps i [] = 0 := rfl
  rw [this, zero_add]

/-! ## Result shape -/

lemma stepTemps_length (nodes : List SimulationNode)
    (adj : List (List (Nat × ℚ))) (temps : List ℚ) (step : ℚ) :
    (stepTemps nodes adj temps step).length = nodes.length := by
  simp [stepTemps]

lemma tempsAt_length (nodes : List SimulationNode)
    (adj : List (List (Nat × ℚ))) (ts T : ℚ) (k : Nat) :
    (tempsAt nodes adj ts T k).length = nodes.length := by
  induction k with
  | zero => simp [tempsAt, initTemps]
  | succ k _ => rw [tempsAt, stepTemps_length]

lemma stepTemps_getD (nodes : List SimulationNode)
    (adj : List (List (Nat × ℚ))) (temps : List ℚ) (step : ℚ) (i : Nat)
    (hi : i < nodes.length) :
    (stepTemps nodes adj temps step).getD i 0 =
      if (nodes.getD i default).isFixed then (nodes.getD i default).fixedTemp
      else temps.getD i 0 +
        flowOfList temps i (adj.getD i []) / (nodes.getD i default).heatCapacity
          * step := by
  rw [stepTemps, getD_range_map _ _ _ _ hi]

lemma initTemps_getD (nodes : List SimulationNode) (i : Nat)
    (hi : i < nodes.length) :
    (initTemps nodes).getD i 0 =
      if (nodes.getD i default).isFixed then (nodes.getD i default).fixedTemp
      else (nodes.getD i default).initialTemp := by
  rw [initTemps, List.getD_eq_getElem?_getD, List.getElem?_map,
    List.getElem?_eq_getElem hi]
  rw [List.getD_eq_getElem?_getD, List.getElem?_eq_getElem hi]
  rfl

lemma resultAt_times_length (nodes : List SimulationNode)
    (edges : List SimulationEdge) (s : SimulationSettings) :
    (resultAt nodes edges s).times.length =
      stepCount s.timeStep s.totalTime + 1 := by
  simp [resultAt, timesUpTo]

lemma resultAt_times_getD (nodes : List SimulationNode)
    (edges : List SimulationEdge) (s : SimulationSettings) (k : Nat)
    (hk : k ≤ stepCount s.timeStep s.totalTime) :
    (resultAt nodes edges s).times.getD k 0 =
      round6 (elapsedAt s.timeStep s.totalTime k) := by
  rw [resultAt]
  exact getD_range_map _ _ _ _ (by omega)

/-- The sample-`k` snapshot of the result is the stage-`k` temperature
vector. -/
lemma sampleVec_resultAt (nodes : List SimulationNode)
    (edges : List SimulationEdge) (s : SimulationSettings) (k : Nat)
    (hk : k ≤ stepCount s.timeStep s.totalTime) :
    sampleVec (resultAt nodes edges s) k =
      tempsAt nodes (buildAdjacency nodes edges) s.timeStep s.totalTime k := by
  rw [sampleVec, resultAt]
  show ((mkSeries nodes (historyUpTo nodes (buildAdjacency nodes edges)
      s.timeStep s.totalTime (stepCount s.timeStep s.totalTime))).map
      (fun ser => ser.temperatures.getD k 0)) = _
  rw [mkSeries, List.map_map]
  have hbody : ∀ i : Nat,
      ((historyUpTo nodes (buildAdjacency nodes edges) s.timeStep s.totalTime
          (stepCount s.timeStep s.totalTime)).map
        (fun temps => temps.getD i 0)).getD k 0 =
      (tempsAt nodes (buildAdjacency nodes edges) s.timeStep s.totalTime k).getD
        i 0 := by
    intro i
    rw [historyUpTo, List.map_map]
    exact getD_range_map _ _ _ _ (by omega)
  have hmap : ∀ i ∈ List.range nodes.length,
      ((fun ser => ser.temperatures.getD k 0) ∘ fun i =>
        ({ nodeId := (nodes.getD i default).id, name := (nodes.getD i default).name
           temperatures := (historyUpTo nodes (buildAdjacency nodes edges)
             s.timeStep s.totalTime (stepCount s.timeStep s.totalTime)).map
               (fun temps => temps.getD i 0) } : SimulationSeries)) i =
      (fun i => (tempsAt nodes (buildAdjacency nodes edges) s.timeStep
        s.totalTime k).getD i 0) i := by
    intro i _
    exact hbody i
  rw [List.map_congr_left hmap]
  exact range_map_getD _ _ (tempsAt_length nodes _ s.timeStep s.totalTime k)

/-! ## Energy bookkeeping and congruence of edge lists -/

lemma list_sum_finsetSum {α : Type} (l : List α) (F : Nat → α → ℚ)
    (s : Finset ℕ) :
    ∑ i in s, (l.map (F i)).sum = (l.map (fun a => ∑ i in s, F i a)).sum := by
  induction l with
  | nil => simp
  | cons a t ih => simp [Finset.sum_add_distrib, ih]

lemma cap_cancel (c t f st : ℚ) (hc : c ≠ 0) :
    c * (t + f / c * st) = c * t + f * st := by
  rw [mul_add]
  congr 1
  rw [div_mul_eq_mul_div, mul_comm c (f * st / c), div_mul_cancel₀ _ hc]

/-- Each edge's two contributions cancel when summed over all nodes:
what leaves one endpoint enters the other. -/
lemma sum_edgeContrib_eq_zero (nodes : List SimulationNode) (temps : List ℚ)
    (e : SimulationEdge) :
    ∑ i in Finset.range nodes.length, edgeContrib nodes temps i e = 0 := by
  rcases h1 : nodeIndexMap nodes e.source with _ | si
  · have : ∀ i, edgeContrib nodes temps i e = 0 := by
      intro i; rw [edgeContrib, h1]
    simp [this]
  · rcases h2 : nodeIndexMap nodes e.target with _ | ti
    · have : ∀ i, edgeContrib nodes temps i e = 0 := by
        intro i; rw [edgeContrib, h1, h2]
      simp [this]
    · have hsi : si < nodes.length := nodeIndexMap_lt nodes e.source si h1
      have hti : ti < nodes.length := nodeIndexMap_lt nodes e.target ti h2
      have hbody : ∀ i, edgeContrib nodes temps i e =
          (if i = si then e.conductance * (temps.getD ti 0 - temps.getD i 0) else 0) +
          (if i = ti then e.conductance * (temps.getD si 0 - temps.getD i 0) else 0) := by
        intro i; rw [edgeContrib, h1, h2]
      rw [Finset.sum_congr rfl (fun i _ => hbody i), Finset.sum_add_distrib,
        Finset.sum_ite_eq' (Finset.range nodes.length) si
          (fun i => e.conductance * (temps.getD ti 0 - temps.getD i 0)),
        Finset.sum_ite_eq' (Finset.range nodes.length) ti
          (fun i => e.conductance * (temps.getD si 0 - temps.getD i 0)),
        if_pos (Finset.mem_range.mpr hsi), if_pos (Finset.mem_range.mpr hti)]
      ring

lemma getD_mem (nodes : List SimulationNode) (i : Nat) (hi : i < nodes.length) :
    nodes.getD i default ∈ nodes := by
  rw [List.getD_eq_getElem?_getD, List.getElem?_eq_getElem hi]
  exact List.getElem_mem hi

/-- One explicit step leaves the total energy unchanged when no node is
fixed: each edge removes from one endpoint exactly what it adds to the
other. -/
lemma totalEnergy_stepTemps (nodes : List SimulationNode)
    (edges : List SimulationEdge) (temps : List ℚ) (step : ℚ)
    (hfree : ∀ node ∈ nodes, node.isFixed = false)
    (hcap : ∀ node ∈ nodes, 0 < node.heatCapacity)
    (hres : ∀ e ∈ edges, (nodeIndexMap nodes e.source).isSome = true ∧
      (nodeIndexMap nodes e.target).isSome = true) :
    totalEnergy nodes
        (stepTemps nodes (buildAdjacency nodes edges) temps step) =
      totalEnergy nodes temps := by
  rw [totalEnergy, totalEnergy]
  have hterm : ∀ i ∈ Finset.range nodes.length,
      (nodes.getD i default).heatCapacity *
        (stepTemps nodes (buildAdjacency nodes edges) temps step).getD i 0 =
      (nodes.getD i default).heatCapacity * temps.getD i 0 +
        flowOfList temps i ((buildAdjacency nodes edges).getD i []) * step := by
    intro i hi
    rw [Finset.mem_range] at hi
    have hmem := getD_mem nodes i hi
    have hfix : (nodes.getD i default).isFixed = false := hfree _ hmem
    rw [stepTemps_getD nodes _ temps step i hi,
      if_neg (by rw [hfix]; exact Bool.false_ne_true)]
    exact cap_cancel _ _ _ _ (ne_of_gt (hcap _ hmem))
  rw [Finset.sum_congr rfl hterm, Finset.sum_add_distrib]
  have hflows : ∀ i ∈ Finset.range nodes.length,
      flowOfList temps i ((buildAdjacency nodes edges).getD i []) * step =
      (edges.map (edgeContrib nodes temps i)).sum * step := by
    intro i _
    rw [flow_build nodes edges temps i hres]
  rw [Finset.sum_congr rfl hflows, ← Finset.sum_mul,
    list_sum_finsetSum edges (edgeContrib nodes temps) (Finset.range nodes.length)]
  have hzero : ∀ e ∈ edges,
      ∑ i in Finset.range nodes.length, edgeContrib nodes temps i e = 0 :=
    fun e _ => sum_edgeContrib_eq_zero nodes temps e
  rw [List.map_congr_left (fun e he => hzero e he)]
  simp

lemma resolve_of_validate (nodes : List SimulationNode)
    (edges : List SimulationEdge) (s : SimulationSettings)
    (h : validate nodes edges s = none) :
    ∀ e ∈ edges, (nodeIndexMap nodes e.source).isSome = true ∧
      (nodeIndexMap nodes e.target).isSome = true := by
  obtain ⟨-, -, -, -, -, -, h7⟩ := (validate_none_iff nodes edges s).mp h
  intro e he
  exact ⟨nodeIndexMap_isSome nodes e.source (h7 e he).1,
    nodeIndexMap_isSome nodes e.target (h7 e he).2⟩

/-- Two edge lists with identical per-node flow sums give identical
stepped temperatures. -/
lemma stepTemps_congr (nodes : List SimulationNode)
    (edges1 edges2 : List SimulationEdge) (temps : List ℚ) (step : ℚ)
    (hres1 : ∀ e ∈ edges1, (nodeIndexMap nodes e.source).isSome = true ∧
      (nodeIndexMap nodes e.target).isSome = true)
    (hres2 : ∀ e ∈ edges2, (nodeIndexMap nodes e.source).isSome = true ∧
      (nodeIndexMap nodes e.target).isSome = true)
    (hsum : ∀ i, (edges1.map (edgeContrib nodes temps i)).sum =
      (edges2.map (edgeContrib nodes temps i)).sum) :
    stepTemps nodes (buildAdjacency nodes edges1) temps step =
      stepTemps nodes (buildAdjacency nodes edges2) temps step := by
  rw [stepTemps, stepTemps]
  apply List.map_congr_left
  intro i _
  rw [flow_build nodes edges1 temps i hres1, hsum i,
    ← flow_build nodes edges2 temps i hres2]

lemma tempsAt_congr (nodes : List SimulationNode)
    (edges1 edges2 : List SimulationEdge) (ts T : ℚ)
    (hres1 : ∀ e ∈ edges1, (nodeIndexMap nodes e.source).isSome = true ∧
      (nodeIndexMap nodes e.target).isSome = true)
    (hres2 : ∀ e ∈ edges2, (nodeIndexMap nodes e.source).isSome = true ∧
      (nodeIndexMap nodes e.target).isSome = true)
    (hsum : ∀ temps i, (edges1.map (edgeContrib nodes temps i)).sum =
      (edges2.map (edgeContrib nodes temps i)).sum) (k : Nat) :
    tempsAt nodes (buildAdjacency nodes edges1) ts T k =
      tempsAt nodes (buildAdjacency nodes edges2) ts T k := by
  induction k with
  | zero => rfl
  | succ k ih =>
    rw [tempsAt, tempsAt, ih]
    exact stepTemps_congr nodes edges1 edges2 _ _ hres1 hres2
      (hsum (tempsAt nodes (buildAdjacency nodes edges2) ts T k))

/-- Two validated edge lists with identical per-node flow sums make the
solver return identical results. -/
lemma simulate_congr_edges (nodes : List SimulationNode)
    (edges1 edges2 : List SimulationEdge) (s : SimulationSettings)
    (h1 : validate nodes edges1 s = none) (h2 : validate nodes edges2 s = none)
    (hsum : ∀ temps i, (edges1.map (edgeContrib nodes temps i)).sum =
      (edges2.map (edgeContrib nodes temps i)).sum) :
    simulateThermalNetwork nodes edges1 s =
      simulateThermalNetwork nodes edges2 s := by
  rw [simulateThermalNetwork_eq nodes edges1 s h1,
    simulateThermalNetwork_eq nodes edges2 s h2]
  have htemps := tempsAt_congr nodes edges1 edges2 s.timeStep s.totalTime
    (resolve_of_validate nodes edges1 s h1)
    (resolve_of_validate nodes edges2 s h2) hsum
  have hhist : historyUpTo nodes (buildAdjacency nodes edges1) s.timeStep
      s.totalTime (stepCount s.timeStep s.totalTime) =
      historyUpTo nodes (buildAdjacency nodes edges2) s.timeStep s.totalTime
        (stepCount s.timeStep s.totalTime) := by
    rw [historyUpTo, historyUpTo]
    exact List.map_congr_left (fun k _ => htemps k)
  rw [resultAt, resultAt, hhist]

/-! ## Inversion and rounding facts -/

lemma simulate_error_of_validate (nodes : List SimulationNode)
    (edges : List SimulationEdge) (s : SimulationSettings) (e : String)
    (hv : validate nodes edges s = some e) :
    simulateThermalNetwork nodes edges s = .error e := by
  unfold simulateThermalNetwork
  rw [hv]

lemma validate_none_of_ok (nodes : List SimulationNode)
    (edges : List SimulationEdge) (s : SimulationSettings)
    (res : SimulationResult)
    (h : simulateThermalNetwork nodes edges s = .ok res) :
    validate nodes edges s = none := by
  rcases hv : validate nodes edges s with _ | e
  · rfl
  · rw [simulate_error_of_validate nodes edges s e hv] at h
    exact absurd h (by simp)

lemma res_eq_resultAt (nodes : List SimulationNode)
    (edges : List SimulationEdge) (s : SimulationSettings)
    (res : SimulationResult)
    (h : simulateThermalNetwork nodes edges s = .ok res) :
    res = resultAt nodes edges s := by
  have := simulateThermalNetwork_eq nodes edges s
    (validate_none_of_ok nodes edges s res h)
  rw [this] at h
  exact (Except.ok.injEq _ _ ▸ congrArg id h).symm ▸ (Except.ok.inj h).symm

lemma round6_eq_of_int (q : ℚ) (z : ℤ) (h : q * 1000000 = (z : ℚ)) :
    round6 q = q := by
  have hq : q = (z : ℚ) / 1000000 := by
    rw [eq_div_iff (by norm_num : (1000000 : ℚ) ≠ 0)]
    exact h
  have hfloor : ⌊(z : ℚ) + 1 / 2⌋ = z := by
    rw [add_comm, Int.floor_add_int]
    norm_num
  rw [round6, floorQ_eq, h, hfloor, ← hq]

lemma round6_abs_le (q : ℚ) : |round6 q - q| ≤ 1 / 2000000 := by
  have h1 : (⌊q * 1000000 + 1 / 2⌋ : ℚ) ≤ q * 1000000 + 1 / 2 :=
    Int.floor_le _
  have h2 : q * 1000000 + 1 / 2 - 1 < (⌊q * 1000000 + 1 / 2⌋ : ℚ) :=
    Int.sub_one_lt_floor _
  rw [round6, floorQ_eq, abs_le]
  constructor <;> linarith

lemma stepCount_mul_ge (ts T : ℚ) (hts : 0 < ts) :
    T - tolQ ≤ (stepCount ts T : ℚ) * ts := by
  have hxts : T - tolQ = (T - tolQ) / ts * ts := (div_mul_cancel₀ _ hts.ne').symm
  by_cases hx : 0 ≤ ⌈(T - tolQ) / ts⌉
  · have hcast : ((stepCount ts T : ℕ) : ℚ) = ((⌈(T - tolQ) / ts⌉ : ℤ) : ℚ) := by
      rw [stepCount, ceilQ_eq]
      norm_cast
      exact Int.toNat_of_nonneg hx
    rw [hcast]
    have hle : (T - tolQ) / ts ≤ ((⌈(T - tolQ) / ts⌉ : ℤ) : ℚ) := Int.le_ceil _
    nlinarith
  · have hneg : ((⌈(T - tolQ) / ts⌉ : ℤ) : ℚ) < 0 :=
      Int.cast_lt_zero.mpr (not_le.mp hx)
    have hlt : (T - tolQ) / ts < 0 := lt_of_le_of_lt (Int.le_ceil _) hneg
    have hzero : stepCount ts T = 0 := by
      rw [stepCount, ceilQ_eq, Int.toNat_eq_zero]
      exact (not_le.mp hx).le
    rw [hzero]
    push_cast
    nlinarith

lemma elapsedAt_final_le (ts T : ℚ) : elapsedAt ts T (stepCount ts T) ≤ T :=
  min_le_right _ _

lemma elapsedAt_final_ge (ts T : ℚ) (hts : 0 < ts) :
    T - tolQ ≤ elapsedAt ts T (stepCount ts T) :=
  le_min (stepCount_mul_ge ts T hts) (by linarith [tolQ_pos])

lemma elapsedAt_int (ts T : ℚ) (a b : ℤ) (hts6 : ts * 1000000 = (a : ℚ))
    (hT6 : T * 1000000 = (b : ℚ)) (k : Nat) :
    elapsedAt ts T k * 1000000 = ((min ((k : ℤ) * a) b : ℤ) : ℚ) := by
  rw [elapsedAt, min_mul_of_nonneg _ _ (by norm_num : (0 : ℚ) ≤ 1000000),
    mul_assoc, hts6, hT6]
  rw [Int.cast_min]
  push_cast
  rfl

/-- With 6-decimal step and total time, the loop lands exactly on
`totalTime`. -/
lemma elapsedAt_stepCount_eq (ts T : ℚ) (hts : 0 < ts) (a b : ℤ)
    (hts6 : ts * 1000000 = (a : ℚ)) (hT6 : T * 1000000 = (b : ℚ)) :
    elapsedAt ts T (stepCount ts T) = T := by
  have hge : T - tolQ ≤ (stepCount ts T : ℚ) * ts := stepCount_mul_ge ts T hts
  have hint : ((stepCount ts T : ℤ) * a : ℚ) = (stepCount ts T : ℚ) * ts * 1000000 := by
    rw [mul_assoc, hts6]
    push_cast
    ring
  have hIntGe : b ≤ (stepCount ts T : ℤ) * a := by
    by_contra hc
    have hc1 : (stepCount ts T : ℤ) * a ≤ b - 1 := by omega
    have hc2 : ((stepCount ts T : ℤ) * a : ℚ) ≤ (b : ℚ) - 1 := by
      exact_mod_cast hc1
    rw [hint] at hc2
    have hb : (b : ℚ) = T * 1000000 := hT6.symm
    rw [hb] at hc2
    have htol : tolQ = 1 / 1000000000 := rfl
    rw [htol] at hge
    linarith
  have hQge : T ≤ (stepCount ts T : ℚ) * ts := by
    have h1 : (b : ℚ) ≤ ((stepCount ts T : ℤ) * a : ℚ) := by exact_mod_cast hIntGe
    rw [hint, ← hT6] at h1
    nlinarith
  rw [elapsedAt]
  exact min_eq_right hQge

/-! ## Estimator facts -/

lemma validateNetworkStructure_none_iff (nodes : List SimulationNode)
    (edges : List SimulationEdge) :
    validateNetworkStructure nodes edges = none ↔
      (nodes ≠ [] ∧ (∀ node ∈ nodes, 0 < node.heatCapacity) ∧
       (∀ edge ∈ edges, 0 ≤ edge.conductance) ∧
       (∀ edge ∈ edges,
         edge.source ∈ nodeIds nodes ∧ edge.target ∈ nodeIds nodes)) := by
  rw [validateNetworkStructure]
  by_cases h : nodes.isEmpty = true
  · rw [if_pos h]
    simp only [List.isEmpty_iff] at h
    simp [h]
  · rw [if_neg h]
    simp only [List.isEmpty_iff] at h
    rw [networkEntityError_eq_none_iff]
    tauto

lemma estimationSimSettings_valid (ms : List MeasurementData) :
    0 < (estimationSimSettings ms).timeStep ∧
    0 < (estimationSimSettings ms).totalTime ∧
    (estimationSimSettings ms).timeStep ≤ (estimationSimSettings ms).totalTime := by
  rw [estimationSimSettings]
  by_cases h : 0 < measurementSpan ms
  · rw [if_pos h]
    refine ⟨by positivity, h, ?_⟩
    exact div_le_self h.le (by norm_num)
  · rw [if_neg h]
    norm_num

lemma estimation_validate_none (nodes : List SimulationNode)
    (edges : List SimulationEdge) (ms : List MeasurementData)
    (h : validateNetworkStructure nodes edges = none) :
    validate nodes edges (estimationSimSettings ms) = none := by
  obtain ⟨h1, h2, h3, h4⟩ := (validateNetworkStructure_none_iff nodes edges).mp h
  obtain ⟨g1, g2, g3⟩ := estimationSimSettings_valid ms
  exact (validate_none_iff nodes edges (estimationSimSettings ms)).mpr
    ⟨h1, g1, g2, g3, h2, h3, h4⟩

/-! ## Per-claim support -/

lemma tempsAt_fixed (nodes : List SimulationNode)
    (adj : List (List (Nat × ℚ))) (ts T : ℚ) (i : Nat)
    (hi : i < nodes.length) (hfix : (nodes.getD i default).isFixed = true) :
    ∀ k, (tempsAt nodes adj ts T k).getD i 0 = (nodes.getD i default).fixedTemp := by
  intro k
  induction k with
  | zero =>
    rw [tempsAt, initTemps_getD nodes i hi, if_pos hfix]
  | succ k _ =>
    rw [tempsAt, stepTemps_getD nodes adj _ _ i hi, if_pos hfix]

lemma tempsAt_free_succ (nodes : List SimulationNode)
    (adj : List (List (Nat × ℚ))) (ts T : ℚ) (i : Nat)
    (hi : i < nodes.length) (hfix : (nodes.getD i default).isFixed = false)
    (k : Nat) :
    (tempsAt nodes adj ts T (k + 1)).getD i 0 =
      (tempsAt nodes adj ts T k).getD i 0 +
        flowOfList (tempsAt nodes adj ts T k) i (adj.getD i []) /
          (nodes.getD i default).heatCapacity * stepAt ts T k := by
  rw [tempsAt, stepTemps_getD nodes adj _ _ i hi,
    if_neg (by rw [hfix]; exact Bool.false_ne_true)]

lemma resultAt_series_temps_length (nodes : List SimulationNode)
    (edges : List SimulationEdge) (s : SimulationSettings) :
    ∀ ser ∈ (resultAt nodes edges s).series,
      ser.temperatures.length = stepCount s.timeStep s.totalTime + 1 := by
  intro ser hser
  rw [resultAt] at hser
  rcases List.mem_map.mp hser with ⟨i, -, hi⟩
  rw [← hi]
  show ((historyUpTo nodes (buildAdjacency nodes edges) s.timeStep s.totalTime
    (stepCount s.timeStep s.totalTime)).map (fun temps => temps.getD i 0)).length = _
  rw [List.length_map, historyUpTo, List.length_map, List.length_range]

/-- Two edges between the same pair of nodes, in either orientation
(edges are undirected for heat flow), contribute at every node exactly
what the single merged edge with summed conductance contributes. -/
lemma edgeContrib_add_pair (nodes : List SimulationNode) (temps : List ℚ)
    (i : Nat) (e1 e2 e : SimulationEdge)
    (hpair2 : (e2.source = e1.source ∧ e2.target = e1.target) ∨
      (e2.source = e1.target ∧ e2.target = e1.source))
    (hpair : (e.source = e1.source ∧ e.target = e1.target) ∨
      (e.source = e1.target ∧ e.target = e1.source))
    (hg : e.conductance = e1.conductance + e2.conductance) :
    edgeContrib nodes temps i e =
      edgeContrib nodes temps i e1 + edgeContrib nodes temps i e2 := by
  rw [edgeContrib, edgeContrib, edgeContrib, hg]
  rcases hpair2 with ⟨hs2, ht2⟩ | ⟨hs2, ht2⟩ <;>
    rcases hpair with ⟨hse, hte⟩ | ⟨hse, hte⟩ <;>
    rw [hs2, ht2, hse, hte] <;>
    rcases nodeIndexMap nodes e1.source with _ | si <;>
    rcases nodeIndexMap nodes e1.target with _ | ti <;>
    dsimp only
  all_goals first
  | (split_ifs <;> ring)
  | ring

/-- A self-loop contributes no flow anywhere: its temperature difference
vanishes. -/
lemma edgeContrib_self (nodes : List SimulationNode) (temps : List ℚ) (i : Nat)
    (e : SimulationEdge) (hself : e.source = e.target) :
    edgeContrib nodes temps i e = 0 := by
  rw [edgeContrib, hself]
  rcases nodeIndexMap nodes e.target with _ | t
  · rfl
  · by_cases hit : i = t
    · subst hit
      simp
    · simp [hit]

lemma contribSum_append (nodes : List SimulationNode) (temps : List ℚ)
    (i : Nat) (l1 l2 : List SimulationEdge) :
    ((l1 ++ l2).map (edgeContrib nodes temps i)).sum =
      (l1.map (edgeContrib nodes temps i)).sum +
      (l2.map (edgeContrib nodes temps i)).sum := by
  rw [List.map_append, List.sum_append]

/-- A list with a violating element has a first violating element. -/
lemma exists_first_violation {α : Type} (P : α → Prop) [DecidablePred P] :
    ∀ (l : List α), (∃ x ∈ l, P x) →
      ∃ pre x suf, l = pre ++ x :: suf ∧ (∀ y ∈ pre, ¬ P y) ∧ P x := by
  intro l
  induction l with
  | nil =>
    rintro ⟨x, hx, -⟩
    exact absurd hx (List.not_mem_nil x)
  | cons a t ih =>
    rintro ⟨x, hx, hPx⟩
    by_cases hPa : P a
    · exact ⟨[], a, t, rfl, by simp, hPa⟩
    · have hxt : x ∈ t := by
        rcases List.mem_cons.mp hx with rfl | hxt
        · exact absurd hPx hPa
        · exact hxt
      rcases ih ⟨x, hxt, hPx⟩ with ⟨pre, y, suf, hsplit, hpre, hPy⟩
      refine ⟨a :: pre, y, suf, by rw [hsplit]; rfl, fun z hz => ?_, hPy⟩
      rcases List.mem_cons.mp hz with rfl | hz2
      · exact hPa
      · exact hpre z hz2

/-! ## Claim theorems -/

/-- C1: for every input accepted by validation, the temperature of each
non-fixed node `i` at sample `k+1` equals its sample-`k` value plus the
sum over its adjacency neighbours of `conductance × (T_j[k] − T_i[k])`,
divided by its heat capacity and multiplied by the step size
`min timeStep (totalTime − elapsed_k)` — every read taken from the
sample-`k` snapshot — and every sample of each fixed node equals its
`fixedTemp`. -/
theorem C1_explicit_euler_step (nodes : List SimulationNode)
    (edges : List SimulationEdge) (s : SimulationSettings)
    (res : SimulationResult)
    (h : simulateThermalNetwork nodes edges s = .ok res)
    (i : Nat) (hi : i < nodes.length) :
    ((nodes.getD i default).isFixed = true →
      ∀ k, k < res.times.length →
        (sampleVec res k).getD i 0 = (nodes.getD i default).fixedTemp) ∧
    ((nodes.getD i default).isFixed = false →
      ∀ k, k + 1 < res.times.length →
        (sampleVec res (k + 1)).getD i 0 =
          (sampleVec res k).getD i 0 +
            flowOfList (sampleVec res k) i
                ((buildAdjacency nodes edges).getD i []) /
              (nodes.getD i default).heatCapacity *
              stepAt s.timeStep s.totalTime k) := by
  have hres := res_eq_resultAt nodes edges s res h
  subst hres
  constructor
  · intro hfix k hk
    rw [resultAt_times_length] at hk
    rw [sampleVec_resultAt nodes edges s k (by omega)]
    exact tempsAt_fixed nodes _ _ _ i hi hfix k
  · intro hfix k hk
    rw [resultAt_times_length] at hk
    rw [sampleVec_resultAt nodes edges s (k + 1) (by omega),
      sampleVec_resultAt nodes edges s k (by omega)]
    exact tempsAt_free_succ nodes _ _ _ i hi hfix k

/-- Witness for C1 at the spec §8 example: node A's first update is
`100 + 5·(20−100)/50·1 = 92`. -/
theorem C1_explicit_euler_step_witness :
    (sampleVec wRes 1).getD 0 0 =
      (sampleVec wRes 0).getD 0 0 +
        flowOfList (sampleVec wRes 0) 0
            ((buildAdjacency wNodes wEdges).getD 0 []) /
          (wNodes.getD 0 default).heatCapacity * stepAt 1 5 0 :=
  (C1_explicit_euler_step wNodes wEdges wSettings wRes
      (by with_unfolding_all rfl) 0 (by with_unfolding_all decide)).2
    (by with_unfolding_all rfl) 0 (by with_unfolding_all decide)

/-- C2 (counterexample): with `timeStep = 1/3`, `totalTime = 2/3` — an
input accepted by validation — the second `times` entry is the rounded
`333333/1000000`, which does not advance from the first entry by
`min(timeStep, totalTime − elapsed) = 1/3`. -/
theorem C2_time_grid_counterexample :
    simTimes (simulateThermalNetwork c2Nodes [] ⟨1/3, 2/3⟩) =
      [0, 333333/1000000, 666667/1000000] ∧
    (333333 : ℚ)/1000000 - 0 ≠ min ((1 : ℚ)/3) ((2 : ℚ)/3 - 0) := by
  constructor
  · with_unfolding_all rfl
  · with_unfolding_all decide

/-- C2 (amended): the `times` sequence starts at 0 and its entries are
the exact elapsed times rounded to six decimal places; the final entry
equals `totalTime` within 1e-6 always, and when `timeStep` and
`totalTime` are integer multiples of 1e-6 the rounding is the identity,
so each subsequent entry advances exactly by
`min(timeStep, totalTime − elapsed)` and the final entry equals
`totalTime` exactly (e.g. `timeStep = 7`, `totalTime = 20` gives steps
7, 7, 6). -/
theorem C2_time_grid (nodes : List SimulationNode)
    (edges : List SimulationEdge) (s : SimulationSettings)
    (res : SimulationResult)
    (h : simulateThermalNetwork nodes edges s = .ok res) :
    res.times.getD 0 0 = 0 ∧
    |res.times.getD (res.times.length - 1) 0 - s.totalTime| ≤ 1 / 1000000 ∧
    ((s.timeStep * 1000000).den = 1 → (s.totalTime * 1000000).den = 1 →
      (∀ k, k + 1 < res.times.length →
        res.times.getD (k + 1) 0 =
          res.times.getD k 0 + min s.timeStep (s.totalTime - res.times.getD k 0)) ∧
      res.times.getD (res.times.length - 1) 0 = s.totalTime) := by
  have hval := validate_none_of_ok nodes edges s res h
  obtain ⟨-, hts, hT, -, -, -, -⟩ := (validate_none_iff nodes edges s).mp hval
  have hres := res_eq_resultAt nodes edges s res h
  subst hres
  have hlen : (resultAt nodes edges s).times.length =
      stepCount s.timeStep s.totalTime + 1 := resultAt_times_length nodes edges s
  have hlen1 : (resultAt nodes edges s).times.length - 1 =
      stepCount s.timeStep s.totalTime := by omega
  refine ⟨?_, ?_, ?_⟩
  · rw [resultAt_times_getD nodes edges s 0 (by omega),
      elapsedAt_zero _ _ hT.le, round6_zero]
  · rw [hlen1, resultAt_times_getD nodes edges s _ (le_refl _)]
    have h1 := round6_abs_le (elapsedAt s.timeStep s.totalTime
      (stepCount s.timeStep s.totalTime))
    have h2 := elapsedAt_final_le s.timeStep s.totalTime
    have h3 := elapsedAt_final_ge s.timeStep s.totalTime hts
    have htol : tolQ = 1 / 1000000000 := rfl
    rw [htol] at h3
    rw [abs_le] at h1 ⊢
    constructor <;> linarith [h1.1, h1.2]
  · intro hden1 hden2
    obtain ⟨a, ha⟩ : ∃ z : ℤ, s.timeStep * 1000000 = (z : ℚ) :=
      ⟨_, ((Rat.den_eq_one_iff _).mp hden1).symm⟩
    obtain ⟨b, hb⟩ : ∃ z : ℤ, s.totalTime * 1000000 = (z : ℚ) :=
      ⟨_, ((Rat.den_eq_one_iff _).mp hden2).symm⟩
    have hexact : ∀ k, round6 (elapsedAt s.timeStep s.totalTime k) =
        elapsedAt s.timeStep s.totalTime k :=
      fun k => round6_eq_of_int _ _ (elapsedAt_int s.timeStep s.totalTime a b ha hb k)
    constructor
    · intro k hk
      rw [hlen] at hk
      rw [resultAt_times_getD nodes edges s (k + 1) (by omega),
        resultAt_times_getD nodes edges s k (by omega), hexact (k + 1), hexact k,
        elapsedAt_succ s.timeStep s.totalTime hts k (by omega)]
      rfl
    · rw [hlen1, resultAt_times_getD nodes edges s _ (le_refl _), hexact,
        elapsedAt_stepCount_eq s.timeStep s.totalTime hts a b ha hb]

/-- Witness for C2 at `timeStep = 7`, `totalTime = 20`: the final entry
is exactly 20 and the first advance is `min 7 (20 − 0) = 7`. -/
theorem C2_time_grid_witness :
    c2Res.times.getD (c2Res.times.length - 1) 0 = (20 : ℚ) ∧
    c2Res.times.getD 1 0 =
      c2Res.times.getD 0 0 + min 7 (20 - c2Res.times.getD 0 0) :=
  ⟨((C2_time_grid c2Nodes [] ⟨7, 20⟩ c2Res (by with_unfolding_all rfl)).2.2
      (by with_unfolding_all rfl) (by with_unfolding_all rfl)).2,
   ((C2_time_grid c2Nodes [] ⟨7, 20⟩ c2Res (by with_unfolding_all rfl)).2.2
      (by with_unfolding_all rfl) (by with_unfolding_all rfl)).1 0
     (by with_unfolding_all decide)⟩

/-- C3: the validation of `simulateThermalNetwork` accepts exactly when
all seven preconditions hold, and on rejected inputs the reported error
is the one of the earliest violated precondition, in the fixed order:
no-nodes, timeStep, totalTime, totalTime ≥ timeStep, per-node checks
(first offending node wins), per-edge conductance (first offending edge
wins), edge endpoints.  In particular an empty network with an invalid
timeStep reports the no-nodes error. -/
theorem C3_validation_order (nodes : List SimulationNode)
    (edges : List SimulationEdge) (s : SimulationSettings) :
    (validate nodes edges s = none ↔
      (nodes ≠ [] ∧ 0 < s.timeStep ∧ 0 < s.totalTime ∧
       s.timeStep ≤ s.totalTime ∧
       (∀ node ∈ nodes, 0 < node.heatCapacity) ∧
       (∀ edge ∈ edges, 0 ≤ edge.conductance) ∧
       (∀ edge ∈ edges,
         edge.source ∈ nodeIds nodes ∧ edge.target ∈ nodeIds nodes))) ∧
    (nodes = [] → validate nodes edges s = some errNoNodes) ∧
    (nodes ≠ [] → s.timeStep ≤ 0 → validate nodes edges s = some errTimeStep) ∧
    (nodes ≠ [] → 0 < s.timeStep → s.totalTime ≤ 0 →
      validate nodes edges s = some errTotalTime) ∧
    (nodes ≠ [] → 0 < s.timeStep → 0 < s.totalTime →
      s.totalTime < s.timeStep → validate nodes edges s = some errTotalLtStep) ∧
    (∀ pre node suf, nodes = pre ++ node :: suf → 0 < s.timeStep →
      0 < s.totalTime → s.timeStep ≤ s.totalTime →
      (∀ x ∈ pre, 0 < x.heatCapacity) → node.heatCapacity ≤ 0 →
      validate nodes edges s = some (errHeatCapacity node.name)) ∧
    (∀ pre edge suf, edges = pre ++ edge :: suf → nodes ≠ [] →
      0 < s.timeStep → 0 < s.totalTime → s.timeStep ≤ s.totalTime →
      (∀ x ∈ nodes, 0 < x.heatCapacity) → (∀ x ∈ pre, 0 ≤ x.conductance) →
      edge.conductance < 0 →
      validate nodes edges s = some errConductance) ∧
    (nodes ≠ [] → 0 < s.timeStep → 0 < s.totalTime →
      s.timeStep ≤ s.totalTime → (∀ x ∈ nodes, 0 < x.heatCapacity) →
      (∀ x ∈ edges, 0 ≤ x.conductance) →
      (∃ edge ∈ edges,
        ¬ (edge.source ∈ nodeIds nodes ∧ edge.target ∈ nodeIds nodes)) →
      validate nodes edges s = some errDangling) := by
  refine ⟨validate_none_iff nodes edges s, ?_, ?_, ?_, ?_, ?_, ?_, ?_⟩
  · exact validate_eq_of_empty nodes edges s
  · exact validate_eq_of_badTimeStep nodes edges s
  · exact validate_eq_of_badTotalTime nodes edges s
  · exact validate_eq_of_totalLtStep nodes edges s
  · intro pre node suf hsplit h2 h3 h4 hpre hbad
    have h1 : nodes ≠ [] := by rw [hsplit]; simp
    rw [validate_eq_entity nodes edges s h1 h2 h3 h4]
    exact networkEntityError_nodeErr nodes edges pre node suf hsplit hpre hbad
  · intro pre edge suf hsplit h1 h2 h3 h4 hnodes hpre hbad
    rw [validate_eq_entity nodes edges s h1 h2 h3 h4]
    exact networkEntityError_condErr nodes edges hnodes pre edge suf hsplit hpre hbad
  · intro h1 h2 h3 h4 hnodes hcond hbad
    rw [validate_eq_entity nodes edges s h1 h2 h3 h4]
    exact networkEntityError_dangling nodes edges hnodes hcond hbad

/-- Witness for C3: zero nodes and an invalid `timeStep = 0` report the
no-nodes error, not the timeStep error. -/
theorem C3_validation_order_witness :
    validate [] [] ⟨0, 0⟩ = some errNoNodes :=
  (C3_validation_order [] [] ⟨0, 0⟩).2.1 rfl

/-- C4: once the supplied network passes the Solver's structural
validation, the estimator never fails and returns a
`ParameterEstimationResult`; with empty `measurementData` it fails fast
with the empty-measurement error instead of silently returning zero
error.  (The estimator is modelled from the spec, its implementation not
being among the sources; see `estimateParameters`.) -/
theorem C4_estimator_contract (nodes : List SimulationNode)
    (edges : List SimulationEdge) (settings : ParameterEstimationSettings) :
    (validateNetworkStructure nodes edges = none →
      settings.measurementData ≠ [] →
      ∃ r, estimateParameters nodes edges settings = .ok r) ∧
    (validateNetworkStructure nodes edges = none →
      settings.measurementData = [] →
      estimateParameters nodes edges settings = .error errEmptyMeasurement) := by
  constructor
  · intro hv hne
    have hsim := simulateThermalNetwork_eq nodes edges
      (estimationSimSettings settings.measurementData)
      (estimation_validate_none nodes edges settings.measurementData hv)
    simp only [estimateParameters, hv, hsim]
    rw [if_neg (by simp [hne] : ¬ settings.measurementData.isEmpty = true)]
    exact ⟨_, rfl⟩
  · intro hv he
    simp only [estimateParameters, hv]
    rw [if_pos (by simp [he])]

/-- Witness for C4: a concrete one-node network with one measurement
sample estimates successfully; the same network with empty measurement
data fails fast. -/
theorem C4_estimator_contract_witness :
    (∃ r, estimateParameters c4Nodes [] c4Settings = .ok r) ∧
    estimateParameters c4Nodes [] c4SettingsEmpty = .error errEmptyMeasurement :=
  ⟨(C4_estimator_contract c4Nodes [] c4Settings).1 (by with_unfolding_all rfl)
      (by with_unfolding_all decide),
   (C4_estimator_contract c4Nodes [] c4SettingsEmpty).2
      (by with_unfolding_all rfl) rfl⟩

/-- C5: for every valid network with no fixed node, the total thermal
energy `Σ heatCapacity × temperature` is exactly the same at every
sample (exact rational arithmetic): each edge's flow leaves one endpoint
and enters the other in equal magnitude. -/
theorem C5_energy_conservation (nodes : List SimulationNode)
    (edges : List SimulationEdge) (s : SimulationSettings)
    (res : SimulationResult)
    (h : simulateThermalNetwork nodes edges s = .ok res)
    (hfree : ∀ node ∈ nodes, node.isFixed = false) :
    ∀ k, k < res.times.length →
      totalEnergy nodes (sampleVec res k) = totalEnergy nodes (sampleVec res 0) := by
  have hval := validate_none_of_ok nodes edges s res h
  obtain ⟨-, -, -, -, hcap, -, -⟩ := (validate_none_iff nodes edges s).mp hval
  have hresolve := resolve_of_validate nodes edges s hval
  have hres := res_eq_resultAt nodes edges s res h
  subst hres
  have key : ∀ j, totalEnergy nodes
      (tempsAt nodes (buildAdjacency nodes edges) s.timeStep s.totalTime j) =
      totalEnergy nodes
        (tempsAt nodes (buildAdjacency nodes edges) s.timeStep s.totalTime 0) := by
    intro j
    induction j with
    | zero => rfl
    | succ j ih =>
      have hstep : tempsAt nodes (buildAdjacency nodes edges) s.timeStep
          s.totalTime (j + 1) =
          stepTemps nodes (buildAdjacency nodes edges)
            (tempsAt nodes (buildAdjacency nodes edges) s.timeStep s.totalTime j)
            (stepAt s.timeStep s.totalTime j) := rfl
      rw [hstep, totalEnergy_stepTemps nodes edges _ _ hfree hcap hresolve, ih]
  intro k hk
  rw [resultAt_times_length] at hk
  rw [sampleVec_resultAt nodes edges s k (by omega),
    sampleVec_resultAt nodes edges s 0 (by omega)]
  exact key k

/-- Witness for C5: a two-free-node network conserves
`Σ heatCapacity × temperature` through the last sample. -/
theorem C5_energy_conservation_witness :
    totalEnergy c5Nodes (sampleVec c5Res 3) =
      totalEnergy c5Nodes (sampleVec c5Res 0) :=
  C5_energy_conservation c5Nodes c5Edges ⟨1, 3⟩ c5Res
    (by with_unfolding_all rfl) (by with_unfolding_all decide) 3
    (by with_unfolding_all decide)

/-- C6 (counterexample): with `timeStep = 1`,
`totalTime = 1 + 1e-9` — accepted by validation — the loop executes one
iteration (`times` has 2 entries), not `⌈totalTime/timeStep⌉ = 2`
iterations: the remainder lies within the 1e-9 loop tolerance. -/
theorem C6_iteration_count_counterexample :
    (simTimes (simulateThermalNetwork c2Nodes []
      ⟨1, 1000000001/1000000000⟩)).length = 2 ∧
    2 ≠ 1 + (⌈((1000000001 : ℚ)/1000000000) / 1⌉).toNat := by
  constructor
  · with_unfolding_all rfl
  · rw [← ceilQ_eq]
    with_unfolding_all decide

/-- C6 (amended): on accepted inputs the loop always terminates, and it
executes exactly `⌈(totalTime − 1e-9)/timeStep⌉` iterations — the 1e-9
being the loop's floating-drift tolerance — so `times` and every
temperature series have one more entry than that.  This equals
`⌈totalTime/timeStep⌉` except when `totalTime` exceeds a multiple of
`timeStep` by at most 1e-9 (or `timeStep ≤ 1e-9`). -/
theorem C6_iteration_count (nodes : List SimulationNode)
    (edges : List SimulationEdge) (s : SimulationSettings)
    (h : validate nodes edges s = none) :
    ∃ res, simulateThermalNetwork nodes edges s = .ok res ∧
      res.times.length =
        (⌈(s.totalTime - 1/1000000000) / s.timeStep⌉).toNat + 1 ∧
      ∀ ser ∈ res.series, ser.temperatures.length =
        (⌈(s.totalTime - 1/1000000000) / s.timeStep⌉).toNat + 1 := by
  have hcount : stepCount s.timeStep s.totalTime =
      (⌈(s.totalTime - 1/1000000000) / s.timeStep⌉).toNat := by
    rw [stepCount, ceilQ_eq]
    rfl
  refine ⟨resultAt nodes edges s, simulateThermalNetwork_eq nodes edges s h, ?_, ?_⟩
  · rw [resultAt_times_length, hcount]
  · intro ser hser
    rw [resultAt_series_temps_length nodes edges s ser hser, hcount]

/-- Witness for C6 at `timeStep = 7`, `totalTime = 20`: the loop runs
`⌈(20 − 1e-9)/7⌉ = 3` iterations and all series have 4 entries. -/
theorem C6_iteration_count_witness :
    ∃ res, simulateThermalNetwork c2Nodes [] ⟨7, 20⟩ = .ok res ∧
      res.times.length = (⌈((20 : ℚ) - 1/1000000000) / 7⌉).toNat + 1 ∧
      ∀ ser ∈ res.series, ser.temperatures.length =
        (⌈((20 : ℚ) - 1/1000000000) / 7⌉).toNat + 1 :=
  C6_iteration_count c2Nodes [] ⟨7, 20⟩ (by with_unfolding_all rfl)

/-- C7: replacing two edges between the same pair of nodes — in either
orientation, edges being undirected for heat flow — by one edge whose
conductance is the sum leaves the solver's output unchanged: each
parallel edge is evaluated independently and conductances sum in
effect. -/
theorem C7_parallel_edges (nodes : List SimulationNode)
    (pre mid post : List SimulationEdge) (e1 e2 e : SimulationEdge)
    (s : SimulationSettings) (res : SimulationResult)
    (hpair2 : (e2.source = e1.source ∧ e2.target = e1.target) ∨
      (e2.source = e1.target ∧ e2.target = e1.source))
    (hpair : (e.source = e1.source ∧ e.target = e1.target) ∨
      (e.source = e1.target ∧ e.target = e1.source))
    (hg : e.conductance = e1.conductance + e2.conductance)
    (h : simulateThermalNetwork nodes (pre ++ e1 :: mid ++ e2 :: post) s = .ok res) :
    simulateThermalNetwork nodes (pre ++ e :: mid ++ post) s = .ok res := by
  have hval1 := validate_none_of_ok _ _ _ _ h
  obtain ⟨h1, h2, h3, h4, h5, h6, h7⟩ := (validate_none_iff _ _ _).mp hval1
  have he1 : e1 ∈ pre ++ e1 :: mid ++ e2 :: post := by simp
  have he2 : e2 ∈ pre ++ e1 :: mid ++ e2 :: post := by simp
  have hmem2 : ∀ x ∈ pre ++ e :: mid ++ post,
      x = e ∨ x ∈ pre ++ e1 :: mid ++ e2 :: post := by
    intro x hx
    simp only [List.mem_append, List.mem_cons] at hx ⊢
    tauto
  have hval2 : validate nodes (pre ++ e :: mid ++ post) s = none := by
    apply (validate_none_iff _ _ _).mpr
    refine ⟨h1, h2, h3, h4, h5, ?_, ?_⟩
    · intro x hx
      rcases hmem2 x hx with rfl | hx2
      · rw [hg]
        exact add_nonneg (h6 e1 he1) (h6 e2 he2)
      · exact h6 x hx2
    · intro x hx
      rcases hmem2 x hx with rfl | hx2
      · rcases hpair with ⟨hse, hte⟩ | ⟨hse, hte⟩
        · rw [hse, hte]
          exact h7 e1 he1
        · rw [hse, hte]
          exact ⟨(h7 e1 he1).2, (h7 e1 he1).1⟩
      · exact h7 x hx2
  have hsum : ∀ temps i,
      ((pre ++ e :: mid ++ post).map (edgeContrib nodes temps i)).sum =
      ((pre ++ e1 :: mid ++ e2 :: post).map (edgeContrib nodes temps i)).sum := by
    intro temps i
    simp only [List.map_append, List.sum_append, List.map_cons, List.sum_cons]
    rw [edgeContrib_add_pair nodes temps i e1 e2 e hpair2 hpair hg]
    ring
  rw [← h]
  exact simulate_congr_edges nodes _ _ s hval2 hval1 hsum

/-- Witness for C7, both orientations: the parallel pair a→b (1 W/K),
a→b (2 W/K) and the anti-parallel pair a→b (1 W/K), b→a (2 W/K) each
give the same result as the single edge a→b of conductance 3. -/
theorem C7_parallel_edges_witness :
    simulateThermalNetwork c7Nodes [c7eMerged] ⟨1, 2⟩ = .ok c7Res ∧
    simulateThermalNetwork c7Nodes [c7eMerged] ⟨1, 2⟩ = .ok c7ResAnti :=
  ⟨C7_parallel_edges c7Nodes [] [] [] c7e1 c7e2 c7eMerged ⟨1, 2⟩ c7Res
      (Or.inl ⟨rfl, rfl⟩) (Or.inl ⟨rfl, rfl⟩) (by with_unfolding_all rfl)
      (by with_unfolding_all rfl),
   C7_parallel_edges c7Nodes [] [] [] c7e1 c7e2r c7eMerged ⟨1, 2⟩ c7ResAnti
      (Or.inr ⟨rfl, rfl⟩) (Or.inl ⟨rfl, rfl⟩) (by with_unfolding_all rfl)
      (by with_unfolding_all rfl)⟩

/-- C8 (counterexample): two networks whose offending edges differ in id
and position produce the same fixed conductance error — the message
identifies neither the edge's name nor its index. -/
theorem C8_error_identification_counterexample :
    simulateThermalNetwork c8Nodes [c8GoodEdge, c8BadEdge] ⟨1, 2⟩ =
      simulateThermalNetwork c8Nodes [c8BadEdge2, c8GoodEdge] ⟨1, 2⟩ ∧
    simulateThermalNetwork c8Nodes [c8GoodEdge, c8BadEdge] ⟨1, 2⟩ =
      .error errConductance ∧
    c8BadEdge.id ≠ c8BadEdge2.id := by
  refine ⟨?_, ?_, ?_⟩
  · with_unfolding_all rfl
  · with_unfolding_all rfl
  · with_unfolding_all decide

/-- C8 (amended): node-level violations produce errors embedding the
offending node's name, while a negative conductance and a dangling edge
reference produce the fixed strings `errConductance` and `errDangling`
that are independent of which edge is at fault. -/
theorem C8_error_identification (nodes : List SimulationNode)
    (edges : List SimulationEdge) (s : SimulationSettings) :
    (∀ pre node suf, nodes = pre ++ node :: suf → 0 < s.timeStep →
      0 < s.totalTime → s.timeStep ≤ s.totalTime →
      (∀ x ∈ pre, 0 < x.heatCapacity) → node.heatCapacity ≤ 0 →
      simulateThermalNetwork nodes edges s =
        .error (errHeatCapacity node.name)) ∧
    (nodes ≠ [] → 0 < s.timeStep → 0 < s.totalTime →
      s.timeStep ≤ s.totalTime → (∀ x ∈ nodes, 0 < x.heatCapacity) →
      (∃ edge ∈ edges, edge.conductance < 0) →
      simulateThermalNetwork nodes edges s = .error errConductance) ∧
    (nodes ≠ [] → 0 < s.timeStep → 0 < s.totalTime →
      s.timeStep ≤ s.totalTime → (∀ x ∈ nodes, 0 < x.heatCapacity) →
      (∀ x ∈ edges, 0 ≤ x.conductance) →
      (∃ edge ∈ edges,
        ¬ (edge.source ∈ nodeIds nodes ∧ edge.target ∈ nodeIds nodes)) →
      simulateThermalNetwork nodes edges s = .error errDangling) := by
  refine ⟨?_, ?_, ?_⟩
  · intro pre node suf hsplit h2 h3 h4 hpre hbad
    have h1 : nodes ≠ [] := by rw [hsplit]; simp
    apply simulate_error_of_validate
    rw [validate_eq_entity nodes edges s h1 h2 h3 h4]
    exact networkEntityError_nodeErr nodes edges pre node suf hsplit hpre hbad
  · intro h1 h2 h3 h4 hnodes hbad
    rcases exists_first_violation (fun x => x.conductance < 0) edges hbad with
      ⟨pre, edge, suf, hsplit, hpre, hPx⟩
    apply simulate_error_of_validate
    rw [validate_eq_entity nodes edges s h1 h2 h3 h4]
    exact networkEntityError_condErr nodes edges hnodes pre edge suf hsplit
      (fun y hy => not_lt.mp (hpre y hy)) hPx
  · intro h1 h2 h3 h4 hnodes hcond hbad
    apply simulate_error_of_validate
    rw [validate_eq_entity nodes edges s h1 h2 h3 h4]
    exact networkEntityError_dangling nodes edges hnodes hcond hbad

/-- Witness for C8: a node named X with heat capacity 0 yields the error
embedding the name X. -/
theorem C8_error_identification_witness :
    simulateThermalNetwork [c8BadNode] [] ⟨1, 2⟩ =
      .error (errHeatCapacity "X") :=
  (C8_error_identification [c8BadNode] [] ⟨1, 2⟩).1 [] c8BadNode [] rfl
    (by with_unfolding_all decide) (by with_unfolding_all decide)
    (by with_unfolding_all decide) (by simp) (by with_unfolding_all decide)

/-- C9: the solver is deterministic — two calls on equal inputs return
equal results; in this pure embedding there is no hidden state, matching
the source function's freedom from global mutable state. -/
theorem C9_deterministic (nodes1 nodes2 : List SimulationNode)
    (edges1 edges2 : List SimulationEdge) (s1 s2 : SimulationSettings)
    (hn : nodes1 = nodes2) (he : edges1 = edges2) (hs : s1 = s2) :
    simulateThermalNetwork nodes1 edges1 s1 =
      simulateThermalNetwork nodes2 edges2 s2 := by
  rw [hn, he, hs]

/-- Witness for C9 at the spec §8 example. -/
theorem C9_deterministic_witness :
    simulateThermalNetwork wNodes wEdges wSettings =
      simulateThermalNetwork wNodes wEdges wSettings :=
  C9_deterministic wNodes wNodes wEdges wEdges wSettings wSettings rfl rfl rfl

/-- C10: a self-loop edge with any conductance ≥ 0 on an existing node
is accepted by validation and leaves the whole result unchanged: its
contributed temperature difference is always zero. -/
theorem C10_self_loop (nodes : List SimulationNode)
    (pre post : List SimulationEdge) (e : SimulationEdge)
    (s : SimulationSettings) (res : SimulationResult)
    (hself : e.source = e.target) (hcond : 0 ≤ e.conductance)
    (hmem : e.source ∈ nodeIds nodes)
    (h : simulateThermalNetwork nodes (pre ++ post) s = .ok res) :
    simulateThermalNetwork nodes (pre ++ e :: post) s = .ok res := by
  have hval1 := validate_none_of_ok _ _ _ _ h
  obtain ⟨h1, h2, h3, h4, h5, h6, h7⟩ := (validate_none_iff _ _ _).mp hval1
  have hmem2 : ∀ x ∈ pre ++ e :: post, x = e ∨ x ∈ pre ++ post := by
    intro x hx
    simp only [List.mem_append, List.mem_cons] at hx ⊢
    tauto
  have hval2 : validate nodes (pre ++ e :: post) s = none := by
    apply (validate_none_iff _ _ _).mpr
    refine ⟨h1, h2, h3, h4, h5, ?_, ?_⟩
    · intro x hx
      rcases hmem2 x hx with rfl | hx2
      · exact hcond
      · exact h6 x hx2
    · intro x hx
      rcases hmem2 x hx with rfl | hx2
      · exact ⟨hmem, hself ▸ hmem⟩
      · exact h7 x hx2
  have hsum : ∀ temps i,
      ((pre ++ e :: post).map (edgeContrib nodes temps i)).sum =
      ((pre ++ post).map (edgeContrib nodes temps i)).sum := by
    intro temps i
    simp only [List.map_append, List.sum_append, List.map_cons, List.sum_cons]
    rw [edgeContrib_self nodes temps i e hself]
    ring
  rw [← h]
  exact simulate_congr_edges nodes _ _ s hval2 hval1 hsum

/-- Witness for C10: adding a self-loop of conductance 2 to a two-node
network leaves the result unchanged. -/
theorem C10_self_loop_witness :
    simulateThermalNetwork c7Nodes [c7e1, c10Loop] ⟨1, 2⟩ = .ok c10Res :=
  C10_self_loop c7Nodes [c7e1] [] c10Loop ⟨1, 2⟩ c10Res rfl
    (by with_unfolding_all decide) (by with_unfolding_all decide)
    (by with_unfolding_all rfl)

end ThermalSim
